import Mathlib

/-!
Verification development for the Amayori-Lang compiler front end:
the low-level lexer (src/amyr-tokenizer/low_lexer.hpp, cursor.hpp,
unicode_escape.hpp), the high-level tokenizer (tokenizer.hpp), the
recursive-descent parser, and the ownership / borrow checker
(src/amyr-borrow-check/BorrowChecker.hpp, BorrowChecker.cpp).

C++ state-mutating member functions are embedded as state-passing Lean
functions: a method that mutates a Cursor and returns a value of type T
becomes a function Cursor → T × Cursor.  Machine integers (size_t,
uint32_t, int) are modelled as Nat or Int; none of the modelled paths
can overflow them.  A C++ function that can throw, or whose loop can
fail to terminate, returns an Option, with none standing for "no value
is ever returned" (a thrown exception or a non-terminating loop).
-/

set_option linter.unusedVariables false
set_option linter.unreachableTactic false
set_option linter.unusedTactic false

namespace Amayori

/-- The sentinel character EOF_CHAR = the NUL character, from cursor.hpp. -/
def EOF_CHAR : Char := Char.ofNat 0

/-- The double-quote character. -/
def DQ : Char := Char.ofNat 34

/-- The single-quote character. -/
def SQ : Char := Char.ofNat 39

/-- The backslash character. -/
def BSL : Char := Char.ofNat 92

/-- The hash character. -/
def HASH : Char := Char.ofNat 35

/-!
## Cursor (cursor.hpp)

The C++ Cursor holds a reference to the input string, a position pos_,
and len_remaining_.  We carry the input as a list of characters.
-/

structure Cursor where
  input : List Char
  pos : Nat
  len_remaining : Nat
deriving Repr, DecidableEq

def Cursor.ofList (l : List Char) : Cursor := ⟨l, 0, l.length⟩

def Cursor.ofString (s : String) : Cursor := Cursor.ofList s.data

/-- first_peek: input_[pos_] if in range, else EOF_CHAR. -/
def Cursor.first_peek (c : Cursor) : Char := c.input.getD c.pos EOF_CHAR

/-- second_peek: one character further. -/
def Cursor.second_peek (c : Cursor) : Char := c.input.getD (c.pos + 1) EOF_CHAR

/-- third_peek: two characters further. -/
def Cursor.third_peek (c : Cursor) : Char := c.input.getD (c.pos + 2) EOF_CHAR

/-- is_eof: pos_ >= input_.length(). -/
def Cursor.is_eof (c : Cursor) : Bool := c.input.length ≤ c.pos

/-- pos_within_token: input_.length() - len_remaining_. -/
def Cursor.pos_within_token (c : Cursor) : Nat := c.input.length - c.len_remaining

/-- reset_pos_within_token: len_remaining_ = input_.length() - pos_. -/
def Cursor.reset_pos_within_token (c : Cursor) : Cursor :=
  { c with len_remaining := c.input.length - c.pos }

/-- bump.  The C++ body reads: if pos_ < length, consume one character and
return it; otherwise `return EOF_CHAR;`.  Since the return type of bump is
std::optional of char, that last statement implicitly converts the char
EOF_CHAR into an ENGAGED optional holding the NUL character — bump never
produces a disengaged optional. -/
def Cursor.bump (c : Cursor) : Option Char × Cursor :=
  if c.pos < c.input.length then
    (some (c.input.getD c.pos EOF_CHAR),
     { c with pos := c.pos + 1, len_remaining := c.len_remaining - 1 })
  else
    (some EOF_CHAR, c)

/-- The loop body of eat_while, recursing on the remaining input length:
every loop pass consumes one character, so the count at entry bounds the
passes, and when it reaches zero the cursor is at end of input and the
loop guard is false anyway. -/
def eat_while_go (p : Char → Bool) : Nat → Cursor → Cursor
  | 0, c => c
  | n + 1, c =>
    if c.pos < c.input.length then
      if p c.first_peek then
        eat_while_go p n { c with pos := c.pos + 1, len_remaining := c.len_remaining - 1 }
      else c
    else c

/-- eat_while: while (!is_eof() && predicate(first_peek())) bump(). -/
def Cursor.eat_while (p : Char → Bool) (c : Cursor) : Cursor :=
  eat_while_go p (c.input.length - c.pos) c

/-- eat_until(target): advance until first_peek is the target character or
end of input; the target character itself is not consumed.  The cursor
revision used by the main lexer document calls this method; it is the
standard scan-to-character helper whose stop-before-target behaviour is
fixed by its call sites (line_comment leaves the newline for the next
token; raw_string_unvalidated bumps the found quote itself). -/
def Cursor.eat_until (target : Char) (c : Cursor) : Cursor :=
  c.eat_while (fun ch => !(ch = target))

theorem Cursor.bump_snd_input (c : Cursor) : ((c.bump).2).input = c.input := by
  unfold Cursor.bump; split <;> rfl

theorem Cursor.bump_snd_pos_le (c : Cursor) : c.pos ≤ ((c.bump).2).pos := by
  unfold Cursor.bump; split <;> simp

theorem Cursor.bump_snd_pos_lt (c : Cursor) (h : c.pos < c.input.length) :
    c.pos < ((c.bump).2).pos := by
  unfold Cursor.bump; rw [if_pos h]; simp

theorem eat_while_go_input (p : Char → Bool) (n : Nat) (c : Cursor) :
    (eat_while_go p n c).input = c.input := by
  induction n generalizing c with
  | zero => rfl
  | succ n ih =>
    unfold eat_while_go
    split
    · split
      · rw [ih]
      · rfl
    · rfl

theorem eat_while_go_pos_le (p : Char → Bool) (n : Nat) (c : Cursor) :
    c.pos ≤ (eat_while_go p n c).pos := by
  induction n generalizing c with
  | zero => exact Nat.le_refl _
  | succ n ih =>
    unfold eat_while_go
    split
    · split
      · have h2 := ih { c with pos := c.pos + 1, len_remaining := c.len_remaining - 1 }
        simp at h2
        omega
      · exact Nat.le_refl _
    · exact Nat.le_refl _

theorem Cursor.eat_while_input (p : Char → Bool) (c : Cursor) :
    (c.eat_while p).input = c.input := eat_while_go_input p _ c

theorem Cursor.eat_while_pos_le (p : Char → Bool) (c : Cursor) :
    c.pos ≤ (c.eat_while p).pos := eat_while_go_pos_le p _ c

theorem Cursor.first_peek_ne_eof_lt (c : Cursor) (h : c.first_peek ≠ EOF_CHAR) :
    c.pos < c.input.length := by
  by_contra hge
  apply h
  unfold Cursor.first_peek
  rw [List.getD_eq_default]
  omega

theorem Cursor.bump_measure_lt (c : Cursor) (h : c.first_peek ≠ EOF_CHAR) :
    ((c.bump).2).input.length - ((c.bump).2).pos < c.input.length - c.pos := by
  have hlt := Cursor.first_peek_ne_eof_lt c h
  rw [Cursor.bump_snd_input]
  have := Cursor.bump_snd_pos_lt c hlt
  omega

/-!
## Character predicates (unicode_escape.hpp)

is_id_start and is_id_continue delegate to ICU (u_isIDStart, u_isIDPart),
an external library.  They are modelled on the ASCII range, where
XID_Start coincides with the ASCII letters and XID_Continue with ASCII
letters, digits and the underscore; every input considered in this
development is ASCII.
-/

/-- Pattern_White_Space membership, hard-coded set from is_whitespace:
tab, line feed, vertical tab, form feed, carriage return, space, next
line, left-to-right mark, right-to-left mark, line separator, paragraph
separator. -/
def is_whitespace (ch : Char) : Bool :=
  ch = '\t' || ch = '\n' || ch.val = 0x0B || ch.val = 0x0C || ch = '\r' || ch = ' '
  || ch.val = 0x85 || ch.val = 0x200E || ch.val = 0x200F || ch.val = 0x2028
  || ch.val = 0x2029

def is_ascii (ch : Char) : Bool := ch.val ≤ 127

def is_ascii_digit (ch : Char) : Bool := '0' ≤ ch && ch ≤ '9'

/-- ICU u_isIDStart (XID_Start), modelled on the ASCII range. -/
def u_isIDStart (ch : Char) : Bool :=
  ('a' ≤ ch && ch ≤ 'z') || ('A' ≤ ch && ch ≤ 'Z')

/-- ICU u_isIDPart (XID_Continue), modelled on the ASCII range. -/
def u_isIDPart (ch : Char) : Bool :=
  u_isIDStart ch || is_ascii_digit ch || ch = '_'

def is_id_start (ch : Char) : Bool := ch = '_' || u_isIDStart ch

def is_id_continue (ch : Char) : Bool := u_isIDPart ch

/-- isemoji: the code checks the single range U+1F600 ..= U+1F64F. -/
def isemoji (ch : Char) : Bool := 0x1F600 ≤ ch.val && ch.val ≤ 0x1F64F

theorem ne_eof_of_ascii_digit {ch : Char} (h : is_ascii_digit ch = true) :
    ch ≠ EOF_CHAR := by
  intro he
  subst he
  exact absurd h (by decide)

theorem ne_eof_of_underscore {ch : Char} (h : ch = '_') : ch ≠ EOF_CHAR := by
  subst h; decide

/-!
## Token kinds (low_lexer.hpp)

The C++ names UnknownPrefix, UnknownPrefixLifetime and GuardedStrPrefix
are shortened to UnknownPref, UnknownPrefLifetime and GuardedStrPref.
-/

inductive DocStyle | Outer | Inner
deriving Repr, DecidableEq

inductive Base | Binary | Octal | Decimal | Hexadecimal
deriving Repr, DecidableEq

inductive LiteralKind
  | Int (base : Base) (empty_int : Bool)
  | Float (base : Base) (empty_exponent : Bool)
  | Char (terminated : Bool)
  | Byte (terminated : Bool)
  | Str (terminated : Bool)
  | ByteStr (terminated : Bool)
  | CStr (terminated : Bool)
  | RawStr (n_hashes : Option Nat)
  | RawByteStr (n_hashes : Option Nat)
  | RawCStr (n_hashes : Option Nat)
deriving Repr, DecidableEq

inductive TokenKind
  | LineComment (doc_style : Option DocStyle)
  | BlockComment (doc_style : Option DocStyle) (terminated : Bool)
  | Whitespace
  | Ident
  | InvalidIdent
  | RawIdent
  | UnknownPref
  | UnknownPrefLifetime
  | RawLifetime
  | GuardedStrPref
  | Literal (kind : LiteralKind) (suffix_start : Nat)
  | Lifetime (starts_with_number : Bool)
  | Semi | Comma | Dot | OpenParen | CloseParen | OpenBrace | CloseBrace
  | OpenBracket | CloseBracket | At | Pound | Tilde | Question | Colon
  | Dollar | Eq | Bang | Lt | Gt | Minus | And | Or | Plus | Star | Slash
  | Caret | Percent | Unknown | Eof
deriving Repr, DecidableEq

/-- A token: kind and length in bytes. -/
structure Token where
  kind : TokenKind
  len : Nat
deriving Repr, DecidableEq

inductive RawStrError
  | InvalidStarter (bad_char : Char)
  | NoTerminator (expected : Nat) (found : Nat) (possible_terminator_offset : Option Nat)
  | TooManyDelimiters (found : Nat)
deriving Repr, DecidableEq

/-!
## Lexer sub-routines (unicode_escape.hpp, main lexer document)
-/

/-- eat_identifier: if is_id_start(first()) then bump and eat_while id_continue. -/
def eat_identifier (c : Cursor) : Cursor :=
  if is_id_start c.first_peek then ((c.bump).2).eat_while is_id_continue else c

/-- eat_literal_suffix just calls eat_identifier. -/
def eat_literal_suffix (c : Cursor) : Cursor := eat_identifier c

/-- line_comment, called with prev = first = the slash character; bumps the
second slash, determines doc style, then eats until the newline. -/
def line_comment (c : Cursor) : TokenKind × Cursor :=
  let c1 := (c.bump).2
  let doc_style : Option DocStyle :=
    if c1.first_peek = '!' then some .Inner
    else if c1.first_peek = '/' && !(c1.second_peek = '/') then some .Outer
    else none
  (.LineComment doc_style, c1.eat_until '\n')

/-- whitespace: consume the whitespace run. -/
def whitespace (c : Cursor) : TokenKind × Cursor :=
  (.Whitespace, c.eat_while is_whitespace)

/-- raw_ident: bump the hash, then eat the identifier. -/
def raw_ident (c : Cursor) : TokenKind × Cursor :=
  (.RawIdent, eat_identifier (c.bump).2)

/-- invalid_ident: eat id_continue, zero-width joiner (U+200D), and emoji. -/
def invalid_ident (c : Cursor) : TokenKind × Cursor :=
  (.InvalidIdent,
   c.eat_while (fun ch => is_id_continue ch || ch.val = 0x200D || (!is_ascii ch && isemoji ch)))

/-- ident_or_unknown_prefix (shortened name): eat the identifier body, then
look at the next character for a reserved-literal-prefix separator. -/
def ident_or_unknown_pref (c : Cursor) : TokenKind × Cursor :=
  let c1 := c.eat_while is_id_continue
  let ch := c1.first_peek
  if ch = HASH || ch = SQ || ch = DQ then (.UnknownPref, c1)
  else if !is_ascii ch && isemoji ch then invalid_ident c1
  else (.Ident, c1)

/-- The loop body of eat_decimal_digits, recursing on the remaining
input length (a digit or underscore under the peek implies the cursor is
in range, so every pass advances; at zero the peek is the NUL sentinel
and the loop exits the same way). -/
def eat_decimal_digits_go : Nat → Cursor → Bool × Cursor
  | 0, c => (false, c)
  | n + 1, c =>
    if is_ascii_digit c.first_peek then
      let r := eat_decimal_digits_go n (c.bump).2
      (true, r.2)
    else if c.first_peek = '_' then eat_decimal_digits_go n (c.bump).2
    else (false, c)

/-- eat_decimal_digits: loop consuming ASCII digits and underscores,
returning whether at least one digit was consumed. -/
def eat_decimal_digits (c : Cursor) : Bool × Cursor :=
  eat_decimal_digits_go (c.input.length - c.pos) c

/-- Hexadecimal digit class used by eat_hexadecimal_digits. -/
def is_hex_digit (ch : Char) : Bool :=
  is_ascii_digit ch || ('a' ≤ ch && ch ≤ 'f') || ('A' ≤ ch && ch ≤ 'F')

theorem ne_eof_of_hex_digit {ch : Char} (h : is_hex_digit ch = true) :
    ch ≠ EOF_CHAR := by
  intro he
  subst he
  exact absurd h (by decide)

/-- The loop body of eat_hexadecimal_digits; see eat_decimal_digits_go. -/
def eat_hexadecimal_digits_go : Nat → Cursor → Bool × Cursor
  | 0, c => (false, c)
  | n + 1, c =>
    if is_hex_digit c.first_peek then
      let r := eat_hexadecimal_digits_go n (c.bump).2
      (true, r.2)
    else if c.first_peek = '_' then eat_hexadecimal_digits_go n (c.bump).2
    else (false, c)

/-- eat_hexadecimal_digits: like eat_decimal_digits with the hex class. -/
def eat_hexadecimal_digits (c : Cursor) : Bool × Cursor :=
  eat_hexadecimal_digits_go (c.input.length - c.pos) c

/-- eat_float_exponent: optional sign, then decimal digits. -/
def eat_float_exponent (c : Cursor) : Bool × Cursor :=
  let c1 := if c.first_peek = '+' || c.first_peek = '-' then (c.bump).2 else c
  eat_decimal_digits c1

/-- Continuation of the number routine after the integer part: look for a
floating-point continuation (a dot not followed by another dot or an
identifier start, or an exponent), otherwise produce an Int literal. -/
def number_tail (base : Base) (c : Cursor) : LiteralKind × Cursor :=
  if c.first_peek = '.' && !(c.second_peek = '.') && !(is_id_start c.second_peek) then
    let c1 := (c.bump).2
    if is_ascii_digit c1.first_peek then
      let r := eat_decimal_digits c1
      let c2 := r.2
      if c2.first_peek = 'e' || c2.first_peek = 'E' then
        let c3 := (c2.bump).2
        let (has_digits, c4) := eat_float_exponent c3
        (.Float base (!has_digits), c4)
      else (.Float base false, c2)
    else (.Float base false, c1)
  else if c.first_peek = 'e' || c.first_peek = 'E' then
    let c1 := (c.bump).2
    let (has_digits, c2) := eat_float_exponent c1
    (.Float base (!has_digits), c2)
  else (.Int base false, c)

/-- number: numeric-literal state machine; first_char is the already-bumped
first digit.  For a leading zero, a base prefix selects the digit class
(eat_decimal_digits for the binary and octal prefixes, matching the C++),
and empty_int records whether no digit followed the prefix. -/
def number (c : Cursor) (first_char : Char) : LiteralKind × Cursor :=
  if first_char = '0' then
    let next := c.first_peek
    if next = 'b' then
      let c1 := (c.bump).2
      let (has_digits, c2) := eat_decimal_digits c1
      if !has_digits then (.Int .Binary true, c2) else number_tail .Binary c2
    else if next = 'o' then
      let c1 := (c.bump).2
      let (has_digits, c2) := eat_decimal_digits c1
      if !has_digits then (.Int .Octal true, c2) else number_tail .Octal c2
    else if next = 'x' then
      let c1 := (c.bump).2
      let (has_digits, c2) := eat_hexadecimal_digits c1
      if !has_digits then (.Int .Hexadecimal true, c2) else number_tail .Hexadecimal c2
    else if next = '_' || is_ascii_digit next then
      let r := eat_decimal_digits c
      number_tail .Decimal r.2
    else if next = '.' || next = 'e' || next = 'E' then
      number_tail .Decimal c
    else (.Int .Decimal false, c)
  else
    let r := eat_decimal_digits c
    number_tail .Decimal r.2

theorem Cursor.measure_bump_lt (c : Cursor) (h : c.pos < c.input.length) :
    ((c.bump).2).input.length - ((c.bump).2).pos < c.input.length - c.pos := by
  have h2 := Cursor.bump_snd_pos_lt c h
  rw [Cursor.bump_snd_input]
  omega

theorem Cursor.measure_bump2_lt (c : Cursor) (h : c.pos < c.input.length) :
    ((((c.bump).2).bump).2).input.length - ((((c.bump).2).bump).2).pos
      < c.input.length - c.pos := by
  have h2 := Cursor.bump_snd_pos_lt c h
  have h3 := Cursor.bump_snd_pos_le ((c.bump).2)
  rw [Cursor.bump_snd_input, Cursor.bump_snd_input]
  omega

theorem Cursor.pos_lt_of_not_eof_guard (c : Cursor)
    (h : ¬((c.first_peek = EOF_CHAR && c.is_eof) = true)) :
    c.pos < c.input.length := by
  by_cases hch : c.first_peek = EOF_CHAR
  · have hne : ¬(c.is_eof = true) := by
      intro hh
      exact h (by simp [hch, hh])
    unfold Cursor.is_eof at hne
    simp at hne
    exact hne
  · exact Cursor.first_peek_ne_eof_lt c hch

/-- The loop body of the single-quoted scan, recursing on the remaining
input length (every looping pass advances at least one character; at
zero the cursor is at end of input, where the loop's end-of-file test
exits with false just as the zero case does). -/
def single_quoted_loop_go : Nat → Cursor → Bool × Cursor
  | 0, c => (false, c)
  | n + 1, c =>
    if c.first_peek = SQ then (true, (c.bump).2)
    else if c.first_peek = '/' then (false, c)
    else if c.first_peek = '\n' && !(c.second_peek = SQ) then (false, c)
    else if c.first_peek = EOF_CHAR && c.is_eof then (false, c)
    else if c.first_peek = BSL then single_quoted_loop_go n (((c.bump).2).bump).2
    else single_quoted_loop_go n (c.bump).2

/-- The inner scan loop of single_quoted_string: stop on a closing quote,
a slash, a newline not followed by a quote, or true end of file; an
escape consumes two characters. -/
def single_quoted_loop (c : Cursor) : Bool × Cursor :=
  single_quoted_loop_go (c.input.length - c.pos) c

/-- single_quoted_string, entered with prev = the opening quote: the
one-symbol fast path, then the scan loop. -/
def single_quoted_string (c : Cursor) : Bool × Cursor :=
  if c.second_peek = SQ && !(c.first_peek = BSL) then (true, (((c.bump).2).bump).2)
  else single_quoted_loop c

/-- double_quoted_string.  The C++ loop exits with false only when bump()
is disengaged, which never happens (bump yields the engaged NUL at end of
input), so the loop cannot terminate on an unterminated string; the fuel
parameter makes the embedding total, with none for that divergence. -/
def double_quoted_string (fuel : Nat) (c : Cursor) : Option (Bool × Cursor) :=
  match fuel with
  | 0 => none
  | fuel + 1 =>
    let (c_opt, c1) := c.bump
    match c_opt with
    | none => some (false, c1)
    | some ch =>
      if ch = DQ then some (true, c1)
      else if ch = BSL then
        if c1.first_peek = BSL || c1.first_peek = DQ then
          double_quoted_string fuel (c1.bump).2
        else double_quoted_string fuel c1
      else double_quoted_string fuel c1

/-- The nesting-depth loop of block_comment.  As with double_quoted_string,
the C++ `while (auto c = cursor.bump())` condition is always true, so the
unterminated exit (the none arm of the match) is dead code and an
unterminated comment spins; fuel models that divergence as none. -/
def block_comment_loop (fuel : Nat) (doc_style : Option DocStyle) (depth : Nat)
    (c : Cursor) : Option (TokenKind × Cursor) :=
  match fuel with
  | 0 => none
  | fuel + 1 =>
    let (c_opt, c1) := c.bump
    match c_opt with
    | none => some (.BlockComment doc_style false, c1)
    | some ch =>
      if ch = '/' && c1.first_peek = '*' then
        block_comment_loop fuel doc_style (depth + 1) (c1.bump).2
      else if ch = '*' && c1.first_peek = '/' then
        let c2 := (c1.bump).2
        if depth - 1 = 0 then some (.BlockComment doc_style true, c2)
        else block_comment_loop fuel doc_style (depth - 1) c2
      else block_comment_loop fuel doc_style depth c1

/-- block_comment, entered with prev = slash and first = star: bump the
star, read the doc style, then run the depth loop from depth 1. -/
def block_comment (fuel : Nat) (c : Cursor) : Option (TokenKind × Cursor) :=
  let c1 := (c.bump).2
  let doc_style : Option DocStyle :=
    if c1.first_peek = '!' then some .Inner
    else if c1.first_peek = '*' && !(c1.second_peek = '*') && !(c1.second_peek = '/') then
      some .Outer
    else none
  block_comment_loop fuel doc_style 1 c1

/-- The loop body of the opening-hash count; see eat_decimal_digits_go. -/
def count_open_hashes_go : Nat → Cursor → Nat × Cursor
  | 0, c => (0, c)
  | n + 1, c =>
    if c.first_peek = HASH then
      let r := count_open_hashes_go n (c.bump).2
      (r.1 + 1, r.2)
    else (0, c)

/-- The opening-hash counting loop of raw_string_unvalidated. -/
def count_open_hashes (c : Cursor) : Nat × Cursor :=
  count_open_hashes_go (c.input.length - c.pos) c

/-- The closing-hash counting loop: while (first() = hash and count below
n_start_hashes) bump.  Recursion is on the remaining allowance. -/
def eat_end_hashes (c : Cursor) (allowance : Nat) (acc : Nat) : Nat × Cursor :=
  match allowance with
  | 0 => (acc, c)
  | a + 1 =>
    if c.first_peek = HASH then eat_end_hashes (c.bump).2 a (acc + 1)
    else (acc, c)

theorem eat_end_hashes_input (c : Cursor) (a acc : Nat) :
    (eat_end_hashes c a acc).2.input = c.input := by
  induction a generalizing c acc with
  | zero => rfl
  | succ a ih =>
    unfold eat_end_hashes
    split
    · rw [ih, Cursor.bump_snd_input]
    · rfl

theorem eat_end_hashes_pos_le (c : Cursor) (a acc : Nat) :
    c.pos ≤ (eat_end_hashes c a acc).2.pos := by
  induction a generalizing c acc with
  | zero => exact Nat.le_refl _
  | succ a ih =>
    unfold eat_end_hashes
    split
    · exact Nat.le_trans (Cursor.bump_snd_pos_le c) (ih _ _)
    · exact Nat.le_refl _

theorem raw_scan_measure (c : Cursor) (h : ¬(((c.eat_until DQ).is_eof) = true))
    (n acc : Nat) :
    (eat_end_hashes (((c.eat_until DQ).bump).2) n acc).2.input.length
      - (eat_end_hashes (((c.eat_until DQ).bump).2) n acc).2.pos
    < c.input.length - c.pos := by
  have hin1 : (c.eat_until DQ).input = c.input := Cursor.eat_while_input _ c
  have hpos1 : c.pos ≤ (c.eat_until DQ).pos := Cursor.eat_while_pos_le _ c
  have hlt : (c.eat_until DQ).pos < (c.eat_until DQ).input.length := by
    unfold Cursor.is_eof at h
    simp at h
    exact h
  have hpos2 := Cursor.bump_snd_pos_lt _ hlt
  have hin2 := Cursor.bump_snd_input (c.eat_until DQ)
  have hpos3 := eat_end_hashes_pos_le (((c.eat_until DQ).bump).2) n acc
  have hin3 := eat_end_hashes_input (((c.eat_until DQ).bump).2) n acc
  rw [hin3, hin2, hin1]
  rw [hin1] at hlt
  omega

/-- The loop body of the raw-string terminator scan, recursing on one
more than the remaining input length: every looping pass consumes the
found quote, so the count at entry bounds the passes, and it reaches
zero only with the cursor at end of input, where the zero case returns
the same NoTerminator exit the loop's end-of-input test produces. -/
def raw_string_scan_go (n_start_hashes prefix_len start_pos : Nat) :
    Nat → Option Nat → Nat → Cursor → Except RawStrError Nat × Cursor
  | 0, possible_terminator_offset, max_hashes, c =>
    (.error (.NoTerminator n_start_hashes max_hashes possible_terminator_offset),
     c.eat_until DQ)
  | fuel + 1, possible_terminator_offset, max_hashes, c =>
    let c1 := c.eat_until DQ
    if c1.is_eof then
      (.error (.NoTerminator n_start_hashes max_hashes possible_terminator_offset), c1)
    else
      let c2 := (c1.bump).2
      let r := eat_end_hashes c2 n_start_hashes 0
      let n_end_hashes := r.1
      let c3 := r.2
      if n_end_hashes = n_start_hashes then (.ok n_start_hashes, c3)
      else if n_end_hashes > n_start_hashes then
        -- Dead branch: eat_end_hashes never counts beyond n_start_hashes.
        raw_string_scan_go n_start_hashes prefix_len start_pos fuel
          (some (c3.pos_within_token - start_pos - n_end_hashes + prefix_len)) n_end_hashes c3
      else raw_string_scan_go n_start_hashes prefix_len start_pos fuel
        possible_terminator_offset max_hashes c3

/-- The scan loop of raw_string_unvalidated: find a quote, eat it, count
closing hashes, terminate when the counts agree. -/
def raw_string_scan (n_start_hashes prefix_len start_pos : Nat)
    (possible_terminator_offset : Option Nat) (max_hashes : Nat) (c : Cursor) :
    Except RawStrError Nat × Cursor :=
  raw_string_scan_go n_start_hashes prefix_len start_pos
    (c.input.length - c.pos + 1) possible_terminator_offset max_hashes c

/-- raw_string_unvalidated, entered with prev = the r character: count
opening hashes, bump the character that should be the opening quote, then
scan for the matching terminator.  The C++ starter check reads
`if (!quote.has_value() && quote.value() != the quote character)`: since
bump never yields a disengaged optional, the conjunction is always false
and InvalidStarter is unreachable. -/
def raw_string_unvalidated (c : Cursor) (prefix_len : Nat) :
    Except RawStrError Nat × Cursor :=
  let start_pos := c.pos_within_token
  let r0 := count_open_hashes c
  let n_start_hashes := r0.1
  let c1 := r0.2
  let rq := c1.bump
  let quote := rq.1
  let c2 := rq.2
  if !quote.isSome && !(quote.getD EOF_CHAR = DQ) then
    (.error (.InvalidStarter (quote.getD EOF_CHAR)), c2)
  else
    raw_string_scan n_start_hashes prefix_len start_pos none 0 c2

/-- raw_double_quoted_string, from the later of the two definitions in the
main lexer document (the one the claims cite).  The C++ branches construct
Ok(n) when the scan succeeded with at most 255 hashes and
Err(TooManyDelimiters) otherwise, but in the second branch the value of
the found field is n_hashes.unwrap(), which throws when the scan itself
failed; that thrown path is the none result.  (Both branches also lack a
return statement in the C++, so the constructed value is the one the
function was written to produce; an earlier duplicate of this function at
line 1056, and the copy in low_lexer.hpp, have the comparison inverted.) -/
def raw_double_quoted_string (c : Cursor) (prefix_len : Nat) :
    Option (Except RawStrError Nat × Cursor) :=
  let r := raw_string_unvalidated c prefix_len
  match r.1 with
  | .ok n =>
    if n ≤ 255 then some (.ok n, r.2)
    else some (.error (.TooManyDelimiters n), r.2)
  | .error _ => none

/-- lifetime_or_char, entered with prev = the single quote. -/
def lifetime_or_char (c : Cursor) : TokenKind × Cursor :=
  let can_be_lifetime : Bool :=
    if c.second_peek = SQ then false
    else is_id_start c.first_peek || is_ascii_digit c.first_peek
  if !can_be_lifetime then
    let r := single_quoted_string c
    let terminated := r.1
    let c1 := r.2
    let suffix_start := c1.pos_within_token
    let c2 := if terminated then eat_literal_suffix c1 else c1
    (.Literal (.Char terminated) suffix_start, c2)
  else if c.first_peek = 'r' && c.second_peek = HASH && is_id_start c.third_peek then
    (.RawLifetime, ((((c.bump).2.bump).2.bump).2).eat_while is_id_continue)
  else
    let starts_with_number := is_ascii_digit c.first_peek
    let c1 := ((c.bump).2).eat_while is_id_continue
    if c1.first_peek = SQ then
      let c2 := (c1.bump).2
      (.Literal (.Char true) c2.pos_within_token, c2)
    else if c1.first_peek = HASH && !starts_with_number then (.UnknownPrefLifetime, c1)
    else (.Lifetime starts_with_number, c1)

/-- c_or_byte_string, shared by the byte-literal and C-string branches of
advance_token.  The C++ final else computes ident_or_unknown_prefix and
falls off the end without a return statement; the computed value is the
one the function was written to produce. -/
def c_or_byte_string (fuel : Nat) (mk_kind : Bool → LiteralKind)
    (mk_kind_raw : Option Nat → LiteralKind)
    (single_quoted : Option (Bool → LiteralKind)) (c : Cursor) :
    Option (TokenKind × Cursor) :=
  if c.first_peek = SQ && single_quoted.isSome then
    let c1 := (c.bump).2
    let r := single_quoted_string c1
    let terminated := r.1
    let c2 := r.2
    let suffix_start := c2.pos_within_token
    let c3 := if terminated then eat_literal_suffix c2 else c2
    some (.Literal ((single_quoted.getD mk_kind) terminated) suffix_start, c3)
  else if c.first_peek = DQ then
    let c1 := (c.bump).2
    (double_quoted_string fuel c1).map fun r =>
      let terminated := r.1
      let c2 := r.2
      let suffix_start := c2.pos_within_token
      let c3 := if terminated then eat_literal_suffix c2 else c2
      (.Literal (mk_kind terminated) suffix_start, c3)
  else if c.first_peek = 'r' && (c.second_peek = DQ || c.second_peek = HASH) then
    let c1 := (c.bump).2
    (raw_double_quoted_string c1 2).map fun r =>
      let res := r.1
      let c2 := r.2
      let suffix_start := c2.pos_within_token
      let c3 := if res.isOk then eat_literal_suffix c2 else c2
      (.Literal (mk_kind_raw res.toOption) suffix_start, c3)
  else
    some (ident_or_unknown_pref c)

/-- The one-character punctuation cases of the advance_token switch,
as a lookup table (0x7B and 0x7D are the two brace characters).  The
cases are on characters disjoint from every other branch, so grouping
them into one lookup preserves the C++ dispatch exactly. -/
def punct_table : List (Char × TokenKind) :=
  [(';', .Semi), (',', .Comma), ('.', .Dot), ('(', .OpenParen), (')', .CloseParen),
   (Char.ofNat 0x7B, .OpenBrace), (Char.ofNat 0x7D, .CloseBrace),
   ('[', .OpenBracket), (']', .CloseBracket), ('@', .At), (HASH, .Pound),
   ('~', .Tilde), ('?', .Question), (':', .Colon), ('$', .Dollar), ('=', .Eq),
   ('!', .Bang), ('<', .Lt), ('>', .Gt), ('-', .Minus), ('&', .And), ('|', .Or),
   ('+', .Plus), ('*', .Star), ('^', .Caret), ('%', .Percent)]

def punct_kind (ch : Char) : Option TokenKind := punct_table.lookup ch

/-- advance_token, the top-level dispatch of the low-level lexer.  The
fuel only feeds double_quoted_string and block_comment_loop; none stands
for a thrown exception (Result::unwrap on an Err in the raw-string
branch) or a non-terminating loop. -/
def advance_token (fuel : Nat) (c0 : Cursor) : Option (Token × Cursor) :=
  let rb := c0.bump
  let c := rb.2
  match rb.1 with
  | none => some (⟨.Eof, 0⟩, c)
  | some first_char =>
    let step : Option (TokenKind × Cursor) :=
      if first_char = '/' then
        if c.first_peek = '/' then some (line_comment c)
        else if c.first_peek = '*' then block_comment fuel c
        else some (.Slash, c)
      else if is_whitespace first_char then some (whitespace c)
      else if first_char = 'r' then
        if c.first_peek = HASH && is_id_start c.second_peek then some (raw_ident c)
        else if c.first_peek = HASH || c.first_peek = DQ then
          (raw_double_quoted_string c 1).bind fun r =>
            let res := r.1
            let c1 := r.2
            let suffix_start := c1.pos_within_token
            let c2 := if res.isOk then eat_literal_suffix c1 else c1
            match res with
            | .ok n => some (.Literal (.RawStr (some n)) suffix_start, c2)
            | .error _ => none  -- RawStr is built from res.unwrap(): throws on Err
        else some (ident_or_unknown_pref c)
      else if first_char = 'b' then
        c_or_byte_string fuel (fun t => .ByteStr t) (fun h => .RawByteStr h)
          (some fun t => .Byte t) c
      else if first_char = 'c' then
        c_or_byte_string fuel (fun t => .CStr t) (fun h => .RawCStr h) none c
      else if is_ascii_digit first_char then
        let r := number c first_char
        let c1 := r.2
        let suffix_start := c1.pos_within_token
        let c2 := eat_literal_suffix c1
        some (.Literal r.1 suffix_start, c2)
      else
      match punct_kind first_char with
      | some k => some (k, c)
      | none =>
      if first_char = SQ then some (lifetime_or_char c)
      else if first_char = DQ then
        (double_quoted_string fuel c).map fun r =>
          let terminated := r.1
          let c1 := r.2
          let suffix_start := c1.pos_within_token
          let c2 := if terminated then eat_literal_suffix c1 else c1
          (.Literal (.Str terminated) suffix_start, c2)
      else if is_id_start first_char then some (ident_or_unknown_pref c)
      else if !is_ascii first_char && isemoji first_char then some (invalid_ident c)
      else some (.Unknown, c)
    step.map fun r =>
      (⟨r.1, (r.2).pos_within_token⟩, (r.2).reset_pos_within_token)

/-!
## The token iterator and strip_shebang (main lexer document)

TokenIterator::next runs advance_token once and turns an Eof token into
the disengaged optional that ends the iteration.  tokenize returns the
iterator over a fresh cursor.
-/

/-- One step of TokenIterator::next.  The outer Option is the lexer not
returning (thrown exception or non-termination); the inner Option is the
iterator protocol, with none when the produced token is Eof. -/
def token_iter_next (fuel : Nat) (c : Cursor) : Option (Option (Token × Cursor)) :=
  (advance_token fuel c).map fun r =>
    if r.1.kind = .Eof then none else some r

/-- The token produced n steps into the iteration (0-indexed), with the
cursor it leaves behind. -/
def nth_token (fuel : Nat) (c : Cursor) : Nat → Option (Token × Cursor)
  | 0 => advance_token fuel c
  | n + 1 => (advance_token fuel c).bind fun r => nth_token fuel r.2 n

/-- The skippability test used in strip_shebang: whitespace and comments
without a doc style. -/
def is_skippable (t : Token) : Bool :=
  match t.kind with
  | .Whitespace => true
  | .LineComment ds => ds.isNone
  | .BlockComment ds _ => ds.isNone
  | _ => false

/-- The search loop of strip_shebang: drive the iterator until the first
token that is not skippable.  Every skippable token consumes at least one
character and the end-of-input state yields a significant Unknown token
of length zero, so steps = length of the tail + 2 can only run out if a
single advance_token call itself fails to return. -/
def find_first_significant (fuel steps : Nat) (c : Cursor) :
    Option (Option Token) :=
  match steps with
  | 0 => none
  | steps + 1 =>
    match token_iter_next fuel c with
    | none => none
    | some none => some none
    | some (some (t, c1)) =>
      if is_skippable t then find_first_significant fuel steps c1
      else some (some t)

/-- strip_shebang (the TokenIterator-based definition of the main lexer
document, lines 880-928): if the input starts with the two shebang
characters, tokenize the tail and look at the first non-whitespace,
non-plain-comment token; unless that token exists and is OpenBracket, the
length of the first line (hash-bang included, newline excluded) is
returned.  The outer Option is none when the underlying lexing does not
return; some none is the C++ nullopt. -/
def strip_shebang (input : String) : Option (Option Nat) :=
  let chars := input.data
  if chars.length < 2 || !(chars.getD 0 EOF_CHAR = HASH) || !(chars.getD 1 EOF_CHAR = '!') then
    some none
  else
    let input_tail := chars.drop 2
    match find_first_significant (input_tail.length + 2) (input_tail.length + 2)
        (Cursor.ofList input_tail) with
    | none => none
    | some first_significant =>
      match first_significant with
      | some t =>
        if t.kind = .OpenBracket then some none
        else
          let line_length := input_tail.findIdx (fun ch => ch = '\n')
          some (some (2 + line_length))
      | none => some none

/-!
## The high-level tokenizer (tokenizer.hpp)

A scanning class over the source with fields start, current, line and an
accumulated token vector.  Unlike the low-level lexer it throws on an
unexpected character.  The numeric value union member of its Token is
unused downstream and is not modelled.
-/

inductive TokenType
  | Let | Mut | Func | Return | If | Else
  | Identifier | Integer | Float
  | Equals | RightBrace | LeftBrace | LeftParen | RightParen
  | Plus | Minus | Star | Slash | Semicolon | EOF_TOKEN
deriving Repr, DecidableEq

/-- The high-level token: type, lexeme, line. -/
structure HToken where
  type : TokenType
  lexeme : String
  line : Nat
deriving Repr, DecidableEq

/-- std::isdigit in the C locale. -/
def cpp_isdigit (ch : Char) : Bool := '0' ≤ ch && ch ≤ '9'

/-- std::isalpha in the C locale. -/
def cpp_isalpha (ch : Char) : Bool :=
  ('a' ≤ ch && ch ≤ 'z') || ('A' ≤ ch && ch ≤ 'Z')

/-- std::isalnum in the C locale. -/
def cpp_isalnum (ch : Char) : Bool := cpp_isalpha ch || cpp_isdigit ch

/-- The keyword map of Tokenizer. -/
def keywords (s : String) : Option TokenType :=
  if s = "let" then some .Let
  else if s = "mut" then some .Mut
  else if s = "func" then some .Func
  else if s = "return" then some .Return
  else if s = "if" then some .If
  else if s = "else" then some .Else
  else none

structure Tokenizer where
  source : List Char
  tokens : List HToken
  start : Nat
  current : Nat
  line : Nat
deriving Repr, DecidableEq

def Tokenizer.init (s : String) : Tokenizer := ⟨s.data, [], 0, 0, 1⟩

def Tokenizer.isAtEnd (st : Tokenizer) : Bool := st.source.length ≤ st.current

/-- peek: NUL at end of input, else the current character. -/
def Tokenizer.peekT (st : Tokenizer) : Char := st.source.getD st.current EOF_CHAR

def Tokenizer.peekNext (st : Tokenizer) : Char := st.source.getD (st.current + 1) EOF_CHAR

/-- The lexeme source.substr(start, current - start). -/
def Tokenizer.lexeme (st : Tokenizer) : String :=
  String.mk ((st.source.drop st.start).take (st.current - st.start))

def Tokenizer.addToken (t : TokenType) (st : Tokenizer) : Tokenizer :=
  { st with tokens := st.tokens ++ [⟨t, st.lexeme, st.line⟩] }

/-- The loop body of eat_chars, recursing on the remaining input length
(each pass advances one character, so the count at entry bounds the
passes; at zero the scanner is at the end and the guard is false). -/
def eat_chars_go (p : Char → Bool) : Nat → Tokenizer → Tokenizer
  | 0, st => st
  | n + 1, st =>
    if st.current < st.source.length then
      if p st.peekT then
        eat_chars_go p n { st with current := st.current + 1 }
      else st
    else st

/-- The while-advance pattern shared by number(), identifier() and
skipComment(): advance while not at end and the predicate holds of peek.
(The C++ loops that omit the isAtEnd test rely on peek returning NUL at
the end, on which their predicates are false.) -/
def Tokenizer.eat_chars (p : Char → Bool) (st : Tokenizer) : Tokenizer :=
  eat_chars_go p (st.source.length - st.current) st

theorem eat_chars_go_source (p : Char → Bool) (n : Nat) (st : Tokenizer) :
    (eat_chars_go p n st).source = st.source := by
  induction n generalizing st with
  | zero => rfl
  | succ n ih =>
    unfold eat_chars_go
    split
    · split
      · rw [ih]
      · rfl
    · rfl

theorem eat_chars_go_current_le (p : Char → Bool) (n : Nat) (st : Tokenizer) :
    st.current ≤ (eat_chars_go p n st).current := by
  induction n generalizing st with
  | zero => exact Nat.le_refl _
  | succ n ih =>
    unfold eat_chars_go
    split
    · split
      · have h2 := ih { st with current := st.current + 1 }
        simp at h2
        omega
      · exact Nat.le_refl _
    · exact Nat.le_refl _

theorem Tokenizer.eat_chars_source (p : Char → Bool) (st : Tokenizer) :
    (st.eat_chars p).source = st.source := eat_chars_go_source p _ st

theorem Tokenizer.eat_chars_current_le (p : Char → Bool) (st : Tokenizer) :
    st.current ≤ (st.eat_chars p).current := eat_chars_go_current_le p _ st

/-- number(): integer part, optional fractional part when a dot is
followed by a digit. -/
def Tokenizer.numberFn (st : Tokenizer) : Tokenizer :=
  let st1 := st.eat_chars cpp_isdigit
  if st1.peekT = '.' && cpp_isdigit st1.peekNext then
    let st2 := Tokenizer.eat_chars cpp_isdigit { st1 with current := st1.current + 1 }
    st2.addToken .Float
  else st1.addToken .Integer

/-- identifier(): consume the identifier body, then a keyword lookup. -/
def Tokenizer.identifierFn (st : Tokenizer) : Tokenizer :=
  let st1 := st.eat_chars (fun ch => cpp_isalnum ch || ch = '_')
  let t := (keywords st1.lexeme).getD .Identifier
  st1.addToken t

/-- skipComment(): advance to the end of the line. -/
def Tokenizer.skipComment (st : Tokenizer) : Tokenizer :=
  st.eat_chars (fun ch => !(ch = '\n'))

/-- The single-character punctuation cases of the tokenize switch:
parentheses, the four simple operators, equals and semicolon.  (Braces
have token types but no case in the switch, so a brace character falls
through to the unexpected-character error.) -/
def punct_token (ch : Char) : Option TokenType :=
  if ch = '(' then some .LeftParen
  else if ch = ')' then some .RightParen
  else if ch = '+' then some .Plus
  else if ch = '-' then some .Minus
  else if ch = '*' then some .Star
  else if ch = '=' then some .Equals
  else if ch = ';' then some .Semicolon
  else none

/-- The switch body of one tokenize-loop iteration, dispatching on the
character just advanced past; st1 is the state with start set to that
character and current one past it.  The switch cases are on disjoint
characters, so hoisting the slash (comment) case and grouping the plain
punctuation cases preserves the C++ dispatch exactly.  The thrown
unexpected-character error is the Except.error case. -/
def Tokenizer.scan_dispatch (ch : Char) (st1 : Tokenizer) : Except String Tokenizer :=
  if ch = '/' then
    if st1.peekT = '/' then .ok st1.skipComment
    else .ok (st1.addToken .Slash)
  else
    match punct_token ch with
    | some t => .ok (st1.addToken t)
    | none =>
      if ch = ' ' || ch = '\r' || ch = '\t' then .ok st1
      else if ch = '\n' then .ok { st1 with line := st1.line + 1 }
      else if cpp_isdigit ch then .ok st1.numberFn
      else if cpp_isalpha ch || ch = '_' then .ok st1.identifierFn
      else
        .error ("Unexpected character \x27" ++ String.mk [ch] ++ "\x27 at line "
          ++ toString st1.line)

/-- One iteration of the tokenize loop: set start, advance one character
and dispatch on it. -/
def Tokenizer.scan_token (st : Tokenizer) : Except String Tokenizer :=
  Tokenizer.scan_dispatch (st.source.getD st.current EOF_CHAR)
    { st with start := st.current, current := st.current + 1 }

theorem Tokenizer.addToken_source (t : TokenType) (st : Tokenizer) :
    (st.addToken t).source = st.source := rfl

theorem Tokenizer.addToken_current (t : TokenType) (st : Tokenizer) :
    (st.addToken t).current = st.current := rfl

theorem Tokenizer.numberFn_source (st : Tokenizer) :
    (st.numberFn).source = st.source := by
  unfold Tokenizer.numberFn
  dsimp only
  split
  · rw [Tokenizer.addToken_source, Tokenizer.eat_chars_source]
    simp [Tokenizer.eat_chars_source]
  · rw [Tokenizer.addToken_source, Tokenizer.eat_chars_source]

theorem Tokenizer.numberFn_current_ge (st : Tokenizer) :
    st.current ≤ (st.numberFn).current := by
  unfold Tokenizer.numberFn
  have h1 := Tokenizer.eat_chars_current_le cpp_isdigit st
  dsimp only
  split
  · rw [Tokenizer.addToken_current]
    have h2 := Tokenizer.eat_chars_current_le cpp_isdigit
      { st.eat_chars cpp_isdigit with current := (st.eat_chars cpp_isdigit).current + 1 }
    simp at h2
    omega
  · rw [Tokenizer.addToken_current]
    exact h1

theorem Tokenizer.identifierFn_source (st : Tokenizer) :
    (st.identifierFn).source = st.source := by
  unfold Tokenizer.identifierFn
  rw [Tokenizer.addToken_source, Tokenizer.eat_chars_source]

theorem Tokenizer.identifierFn_current_ge (st : Tokenizer) :
    st.current ≤ (st.identifierFn).current := by
  unfold Tokenizer.identifierFn
  rw [Tokenizer.addToken_current]
  exact Tokenizer.eat_chars_current_le _ st

theorem Tokenizer.skipComment_source (st : Tokenizer) :
    (st.skipComment).source = st.source := Tokenizer.eat_chars_source _ st

theorem Tokenizer.skipComment_current_ge (st : Tokenizer) :
    st.current ≤ (st.skipComment).current := Tokenizer.eat_chars_current_le _ st

theorem Tokenizer.scan_dispatch_source (ch : Char) (st : Tokenizer) (st1 : Tokenizer)
    (h : Tokenizer.scan_dispatch ch st = .ok st1) : st1.source = st.source := by
  unfold Tokenizer.scan_dispatch at h
  repeat' (split at h)
  all_goals try exact Except.noConfusion h
  all_goals injection h with h2
  all_goals subst h2
  all_goals
    first
      | rfl
      | exact Tokenizer.numberFn_source _
      | exact Tokenizer.identifierFn_source _
      | exact Tokenizer.skipComment_source _

theorem Tokenizer.scan_dispatch_current_ge (ch : Char) (st : Tokenizer) (st1 : Tokenizer)
    (h : Tokenizer.scan_dispatch ch st = .ok st1) : st.current ≤ st1.current := by
  unfold Tokenizer.scan_dispatch at h
  repeat' (split at h)
  all_goals try exact Except.noConfusion h
  all_goals injection h with h2
  all_goals subst h2
  all_goals
    first
      | exact Nat.le_refl _
      | exact Tokenizer.numberFn_current_ge _
      | exact Tokenizer.identifierFn_current_ge _
      | exact Tokenizer.skipComment_current_ge _

theorem Tokenizer.scan_token_source (st : Tokenizer) (st1 : Tokenizer)
    (h : st.scan_token = .ok st1) : st1.source = st.source := by
  unfold Tokenizer.scan_token at h
  have h2 := Tokenizer.scan_dispatch_source _
    { st with start := st.current, current := st.current + 1 } st1 h
  exact h2

theorem Tokenizer.scan_token_current_gt (st : Tokenizer) (st1 : Tokenizer)
    (h : st.scan_token = .ok st1) : st.current < st1.current := by
  unfold Tokenizer.scan_token at h
  have h2 := Tokenizer.scan_dispatch_current_ge _ _ _ h
  simp at h2
  omega

/-- The while-not-at-end loop of tokenize. -/
def Tokenizer.run (st : Tokenizer) : Except String Tokenizer :=
  if h : st.current < st.source.length then
    match hs : st.scan_token with
    | .error e => .error e
    | .ok st1 => Tokenizer.run st1
  else .ok st
termination_by st.source.length - st.current
decreasing_by
  rw [Tokenizer.scan_token_source st st1 hs]
  have := Tokenizer.scan_token_current_gt st st1 hs
  omega

/-- Tokenizer::tokenize: run the scan loop over the whole source, then
append the end-of-file token carrying the final line number. -/
def Tokenizer.tokenize (source : String) : Except String (List HToken) :=
  (Tokenizer.run (Tokenizer.init source)).map fun st =>
    st.tokens ++ [⟨.EOF_TOKEN, "", st.line⟩]

/-- The same scan loop with explicit fuel, used to compute concrete runs
(the well-founded definition above does not reduce inside the kernel).
runFuel agrees with run whenever the fuel exceeds the remaining input. -/
def Tokenizer.runFuel : Nat → Tokenizer → Option (Except String Tokenizer)
  | 0, _ => none
  | fuel + 1, st =>
    if st.current < st.source.length then
      match st.scan_token with
      | .error e => some (.error e)
      | .ok st1 => Tokenizer.runFuel fuel st1
    else some (.ok st)

theorem runFuel_eq_run (fuel : Nat) (st : Tokenizer)
    (h : st.source.length - st.current < fuel) :
    Tokenizer.runFuel fuel st = some (Tokenizer.run st) := by
  induction fuel generalizing st with
  | zero => omega
  | succ fuel ih =>
    unfold Tokenizer.runFuel
    rw [Tokenizer.run]
    split
    · rcases hs : st.scan_token with e | st1 <;> simp only [hs]
      have hsrc := Tokenizer.scan_token_source st st1 hs
      have hcur := Tokenizer.scan_token_current_gt st st1 hs
      exact ih st1 (by rw [hsrc]; omega)
    · rfl

theorem run_concrete (st : Tokenizer) (fuel : Nat)
    (res : Except String Tokenizer)
    (h1 : st.source.length - st.current < fuel)
    (h2 : Tokenizer.runFuel fuel st = some res) : Tokenizer.run st = res := by
  have h3 := runFuel_eq_run fuel st h1
  rw [h2] at h3
  exact (Option.some.inj h3).symm

theorem tokenize_of_runFuel (s : String) (fuel : Nat) (stF : Tokenizer)
    (h1 : s.data.length < fuel)
    (h2 : Tokenizer.runFuel fuel (Tokenizer.init s) = some (.ok stF)) :
    Tokenizer.tokenize s = .ok (stF.tokens ++ [⟨.EOF_TOKEN, "", stF.line⟩]) := by
  unfold Tokenizer.tokenize
  rw [run_concrete (Tokenizer.init s) fuel (.ok stF) h1 h2]
  rfl

theorem tokenize_err_of_runFuel (s : String) (fuel : Nat) (e : String)
    (h1 : s.data.length < fuel)
    (h2 : Tokenizer.runFuel fuel (Tokenizer.init s) = some (.error e)) :
    Tokenizer.tokenize s = .error e := by
  unfold Tokenizer.tokenize
  rw [run_concrete (Tokenizer.init s) fuel (.error e) h1 h2]
  rfl

/-!
## The borrow checker (BorrowChecker.hpp / BorrowChecker.cpp)
-/

inductive BorrowKind | Shared | Mutable | Move
deriving Repr, DecidableEq

inductive ViolationType | BorrowWhileMutable | UseAfterMove | InvalidBorrow
deriving Repr, DecidableEq

structure Violation where
  type : ViolationType
  message : String
  line : Int
deriving Repr, DecidableEq

structure Location where
  line : Int
  column : Int
deriving Repr, DecidableEq

inductive TwoPhaseActivation | NotTwoPhase | NotActivated | ActivatedAt
deriving Repr, DecidableEq

structure BorrowData where
  reserve_location : Location
  activation_location : TwoPhaseActivation
  kind : BorrowKind
  region : String
  borrowed_place : String
  assigned_place : String
deriving Repr, DecidableEq

/-- BorrowSet.  The three unordered maps are modelled as association
lists in insertion order; get_borrow indexes the location map by
position, as std::advance on the begin iterator does (the C++ iteration
order of an unordered_map is unspecified — no settled claim depends on
the order, and the C++ has no bounds check where the model returns
none). -/
structure BorrowSet where
  location_map : List (Location × BorrowData)
  activation_map : List (Location × List Int)
  local_map : List (String × List Nat)
deriving Repr, DecidableEq

def emptyBorrowSet : BorrowSet := ⟨[], [], []⟩

def BorrowSet.get_borrow (bs : BorrowSet) (i : Nat) : Option BorrowData :=
  (bs.location_map.get? i).map (fun p => p.2)

/-!
## The AST (parser document part of the sources)

The node classes IntExprAST, VariableExprAST, LetExprAST, BinaryExprAST
and BlockExprAST become one inductive; the borrow_type member that
VariableExprAST carries is set but never read and is not modelled.
-/

inductive ExprAST
  | IntExpr (value : Int)
  | VarExpr (name : String)
  | LetExpr (name : String) (is_mutable : Bool) (ini : ExprAST)
  | BinaryExpr (op : Char) (lhs : ExprAST) (rhs : ExprAST)
  | BlockExpr (exprs : List ExprAST)
deriving Repr

/-- check_borrow: push a BorrowWhileMutable violation when the record is
a mutable borrow already activated. -/
def check_borrow (b : BorrowData) (errors : List Violation) : List Violation :=
  if b.kind = .Mutable && b.activation_location = .ActivatedAt then
    errors ++ [⟨.BorrowWhileMutable,
      "Cannot mutably borrow \x27" ++ b.borrowed_place
        ++ "\x27 while it is already borrowed",
      b.reserve_location.line⟩]
  else errors

/-- check_variable of the BorrowChecker in BorrowChecker.hpp: consult the
local map and check each recorded borrow that touches the name. -/
def check_variable (bs : BorrowSet) (name : String) (errors : List Violation) :
    List Violation :=
  match bs.local_map.lookup name with
  | none => errors
  | some idxs =>
    idxs.foldl (fun errs i =>
      match bs.get_borrow i with
      | some b => check_borrow b errs
      | none => errs) errors

/-- check_expr: binary nodes recurse left then right, variable nodes are
checked; every other node kind falls through the dynamic_cast chain and
does nothing. -/
def check_expr (bs : BorrowSet) : ExprAST → List Violation → List Violation
  | .BinaryExpr _ l r, errs => check_expr bs r (check_expr bs l errs)
  | .VarExpr n, errs => check_variable bs n errs
  | _, errs => errs

/-- BorrowChecker::check: clear the errors, traverse, report emptiness. -/
def BorrowChecker.check (bs : BorrowSet) (ast : ExprAST) : Bool × List Violation :=
  let errs := check_expr bs ast []
  (errs.isEmpty, errs)

/-!
## The ownership tracker (OwnershipTracker in BorrowChecker.hpp;
the definitions in BorrowChecker.cpp and its earlier revision are
identical)
-/

structure OwnershipData where
  is_mutable : Bool
  borrowers : List String
  scope_level : Int
  moved : Bool
deriving Repr, DecidableEq

/-- OwnershipTracker: the name-keyed unordered map as an association
list with unique keys, and the current scope counter (a C++ int, which
exit_scope can drive negative). -/
structure OwnershipTracker where
  ownership_map : List (String × OwnershipData)
  current_scope : Int
deriving Repr, DecidableEq

def OwnershipTracker.initial : OwnershipTracker := ⟨[], 0⟩

def OwnershipTracker.enter_scope (t : OwnershipTracker) : OwnershipTracker :=
  { t with current_scope := t.current_scope + 1 }

/-- exit_scope: erase every entry whose scope_level equals the current
scope, then decrement. -/
def OwnershipTracker.exit_scope (t : OwnershipTracker) : OwnershipTracker :=
  { ownership_map :=
      t.ownership_map.filter (fun p => !(p.2.scope_level = t.current_scope)),
    current_scope := t.current_scope - 1 }

/-- In-place update of the entry at a key of the association list. -/
def updateAssoc (m : List (String × OwnershipData)) (k : String)
    (d : OwnershipData) : List (String × OwnershipData) :=
  m.map (fun p => if p.1 = k then (k, d) else p)

def OwnershipTracker.register_variable (t : OwnershipTracker) (name : String)
    (is_mut : Bool) : Bool × OwnershipTracker :=
  if (t.ownership_map.lookup name).isSome then (false, t)
  else
    (true, { t with ownership_map :=
        (name, ⟨is_mut, [], t.current_scope, false⟩) :: t.ownership_map })

/-- can_borrow: absent or moved bindings cannot be borrowed; otherwise a
Shared or Move borrow needs the borrower list empty, and a Mutable
borrow additionally needs mutability.  (No case distinguishes the KIND
of the existing borrowers: any registered borrow blocks further
borrows.) -/
def OwnershipTracker.can_borrow (t : OwnershipTracker) (name : String)
    (kind : BorrowKind) : Bool :=
  match t.ownership_map.lookup name with
  | none => false
  | some d =>
    if d.moved then false
    else
      match kind with
      | .Shared => !d.moved && d.borrowers.isEmpty
      | .Mutable => !d.moved && d.borrowers.isEmpty && d.is_mutable
      | .Move => !d.moved && d.borrowers.isEmpty

def OwnershipTracker.register_borrow (t : OwnershipTracker) (var borrower : String)
    (kind : BorrowKind) : Bool × OwnershipTracker :=
  match t.ownership_map.lookup var with
  | none => (false, t)
  | some d =>
    if !(t.can_borrow var kind) then (false, t)
    else
      let m := updateAssoc t.ownership_map var
        ({ d with borrowers := d.borrowers ++ [borrower] })
      (true, { t with ownership_map := m })

def OwnershipTracker.mark_moved (t : OwnershipTracker) (name : String) :
    Bool × OwnershipTracker :=
  match t.ownership_map.lookup name with
  | none => (false, t)
  | some d =>
    if d.moved || !d.borrowers.isEmpty then (false, t)
    else
      let m := updateAssoc t.ownership_map name ({ d with moved := true })
      (true, { t with ownership_map := m })

/-- check_variable of the later BorrowChecker revision (the .cpp in the
unnamed sources), which consults the ownership tracker instead of the
borrow set: an inadmissible default shared read pushes a violation —
of kind BorrowWhileMutable, whatever the cause. -/
def check_variable_tracker (t : OwnershipTracker) (name : String)
    (errors : List Violation) : List Violation :=
  if !(t.can_borrow name .Shared) then
    errors ++ [⟨.BorrowWhileMutable,
      "Cannot borrow variable \x27" ++ name ++ "\x27 - already mutably borrowed",
      0⟩]
  else errors

/-!
## The parser (node::Parser, first parser document of the sources)

State-passing embedding of the std::vector of tokens, the current index,
the flat declared-variables set and the scope depth.  An error value
carries the parser state at the moment of the throw (the C++ object
keeps its mutations when an exception propagates) together with the
message.  Recursion is by fuel; no result (none) models a computation
that runs out of fuel, which cannot happen for fuel beyond the token
count.
-/

/-- The default-constructed token a C++ read of tokens[current] past the
end would touch; the vector produced by tokenize always ends in the
end-of-file token, so indexing never actually goes past it. -/
def padToken : HToken := ⟨.EOF_TOKEN, "", 0⟩

structure ParserState where
  tokens : List HToken
  current : Nat
  declared_variables : List String
  scope_depth : Int
deriving Repr, DecidableEq

def ParserState.peek (st : ParserState) : HToken := st.tokens.getD st.current padToken

def ParserState.previous (st : ParserState) : HToken :=
  st.tokens.getD (st.current - 1) padToken

def ParserState.isAtEnd (st : ParserState) : Bool := st.peek.type = .EOF_TOKEN

/-- advance: if (!isAtEnd()) current++. -/
def ParserState.advanceP (st : ParserState) : ParserState :=
  if st.isAtEnd then st else { st with current := st.current + 1 }

def ParserState.check_type (st : ParserState) (t : TokenType) : Bool :=
  if st.isAtEnd then false else st.peek.type = t

/-- match(type): advance on a type match, reporting success. -/
def ParserState.matchTok (st : ParserState) (t : TokenType) : Bool × ParserState :=
  if st.check_type t then (true, st.advanceP) else (false, st)

/-- Insertion into the declared-variables unordered set. -/
def insertVar (s : String) (l : List String) : List String :=
  if s ∈ l then l else s :: l

/-- std::stoi on the lexeme of an Integer token.  The lexemes it is
applied to are the digit runs the tokenizer produced, on which stoi is
plain base-ten accumulation. -/
def cpp_stoi (s : String) : Int :=
  Int.ofNat (s.data.foldl (fun acc ch => acc * 10 + (ch.toNat - 48)) 0)

/-- A parse outcome: none when fuel ran out, otherwise either the thrown
error (state at the throw, message) or the parsed node and state. -/
abbrev PResult := Option (Except (ParserState × String) (ExprAST × ParserState))

/-- The five mutually recursive parsing routines, packed into one
fuel-structural function with a tag naming the routine (the loop tags
carry the expression accumulated so far).  The named wrappers below
restore the source's names; the packing changes nothing about which
routine calls which. -/
inductive ParseFn
  | primaryF
  | termF
  | term_loopF (expr : ExprAST)
  | expressionF
  | expression_loopF (expr : ExprAST)

def parse_go : Nat → ParseFn → ParserState → PResult
  | 0, _, _ => none
  | fuel + 1, .primaryF, st =>
    let r1 := st.matchTok .Integer
    if r1.1 then some (.ok (.IntExpr (cpp_stoi r1.2.previous.lexeme), r1.2))
    else
      let r2 := st.matchTok .Identifier
      if r2.1 then
        let var_name := r2.2.previous.lexeme
        if var_name ∈ r2.2.declared_variables then
          some (.ok (.VarExpr var_name, r2.2))
        else some (.error (r2.2, "Use of undeclared variable: " ++ var_name))
      else
        let r3 := st.matchTok .LeftParen
        if r3.1 then
          match parse_go fuel .expressionF r3.2 with
          | none => none
          | some (.error e) => some (.error e)
          | some (.ok (e, st4)) =>
            let r4 := st4.matchTok .RightParen
            if r4.1 then some (.ok (e, r4.2))
            else some (.error (r4.2, "Expect \x27)\x27 after expression."))
        else
          let r5 := st.matchTok .Let
          if r5.1 then
            let r6 := r5.2.matchTok .Identifier
            if !r6.1 then
              some (.error (r6.2, "Expect identifier after \x27let\x27."))
            else
              let var_name := r6.2.previous.lexeme
              let r7 := r6.2.matchTok .Mut
              let is_mutable := r7.1
              let r8 := r7.2.matchTok .Equals
              if !r8.1 then
                some (.error (r8.2, "Expect \x27=\x27 after variable name."))
              else
                match parse_go fuel .expressionF r8.2 with
                | none => none
                | some (.error e) => some (.error e)
                | some (.ok (ini, st9)) =>
                  let st10 := { st9 with
                    declared_variables := insertVar var_name st9.declared_variables }
                  some (.ok (.LetExpr var_name is_mutable ini, st10))
          else some (.error (r5.2, "Expect expression."))
  | fuel + 1, .term_loopF expr, st =>
    let rs := st.matchTok .Star
    let r := if rs.1 then rs else rs.2.matchTok .Slash
    if r.1 then
      let op := (r.2.previous.lexeme.data.getD 0 EOF_CHAR)
      match parse_go fuel .primaryF r.2 with
      | none => none
      | some (.error e) => some (.error e)
      | some (.ok (right, st1)) => parse_go fuel (.term_loopF (.BinaryExpr op expr right)) st1
    else some (.ok (expr, r.2))
  | fuel + 1, .termF, st =>
    match parse_go fuel .primaryF st with
    | none => none
    | some (.error e) => some (.error e)
    | some (.ok (e, st1)) => parse_go fuel (.term_loopF e) st1
  | fuel + 1, .expression_loopF expr, st =>
    let rp := st.matchTok .Plus
    let r := if rp.1 then rp else rp.2.matchTok .Minus
    if r.1 then
      let op := (r.2.previous.lexeme.data.getD 0 EOF_CHAR)
      match parse_go fuel .termF r.2 with
      | none => none
      | some (.error e) => some (.error e)
      | some (.ok (right, st1)) =>
        parse_go fuel (.expression_loopF (.BinaryExpr op expr right)) st1
    else some (.ok (expr, r.2))
  | fuel + 1, .expressionF, st =>
    match parse_go fuel .termF st with
    | none => none
    | some (.error e) => some (.error e)
    | some (.ok (e, st1)) => parse_go fuel (.expression_loopF e) st1

/-- parse_primary: integer literal, declared identifier, parenthesised
expression, or let declaration. -/
def parse_primary (fuel : Nat) (st : ParserState) : PResult :=
  parse_go fuel .primaryF st

def parse_term (fuel : Nat) (st : ParserState) : PResult :=
  parse_go fuel .termF st

def parse_expression (fuel : Nat) (st : ParserState) : PResult :=
  parse_go fuel .expressionF st

/-- check_borrow_violations: run the member borrow checker (whose borrow
set no code path ever populates) and throw the first recorded message. -/
def check_borrow_violations (ast : ExprAST) (st : ParserState) :
    Option (ParserState × String) :=
  let r := BorrowChecker.check emptyBorrowSet ast
  if !r.1 then
    match r.2 with
    | e :: _ => some (st, e.message)
    | [] => none
  else none

/-- Parser::parse: parse an expression, consult the borrow checker, and
wrap any thrown error with the line of the current (un-advanced) token
of the state at the throw. -/
def Parser.parse (fuel : Nat) (st : ParserState) : PResult :=
  let body : PResult :=
    match parse_expression fuel st with
    | none => none
    | some (.error e) => some (.error e)
    | some (.ok (ast, st1)) =>
      match check_borrow_violations ast st1 with
      | some err => some (.error err)
      | none => some (.ok (ast, st1))
  match body with
  | none => none
  | some (.ok r) => some (.ok r)
  | some (.error (stE, msg)) =>
    some (.error (stE, "Line " ++ toString stE.peek.line ++ ": " ++ msg))

/-- The statement loop of parse_block, accumulating expressions until a
right brace or the end of input. -/
def parse_block_loop (fuel : Nat) (exprs : List ExprAST) (st : ParserState) :
    Option (Except (ParserState × String) (List ExprAST × ParserState)) :=
  match fuel with
  | 0 => none
  | fuel + 1 =>
    if !st.isAtEnd && !(st.check_type .RightBrace) then
      match Parser.parse fuel st with
      | none => none
      | some (.error e) => some (.error e)
      | some (.ok (e, st1)) =>
        let r := st1.matchTok .Semicolon
        parse_block_loop fuel (exprs ++ [e]) r.2
    else some (.ok (exprs, st))

/-- Parser::parse_block: enter a scope (scope_depth++ only), parse the
statements, require the closing brace, exit the scope (scope_depth--
only; the declared-variables set is left untouched). -/
def Parser.parse_block (fuel : Nat) (st : ParserState) : PResult :=
  let st0 := { st with scope_depth := st.scope_depth + 1 }
  match parse_block_loop fuel [] st0 with
  | none => none
  | some (.error e) => some (.error e)
  | some (.ok (exprs, st1)) =>
    let r := st1.matchTok .RightBrace
    if !r.1 then some (.error (r.2, "Expect \x27\x7d\x27 after block."))
    else
      let st3 := { r.2 with scope_depth := r.2.scope_depth - 1 }
      some (.ok (.BlockExpr exprs, st3))

/-!
## Concrete inputs used by the theorems
-/

/-- Token vector for a block body "let x = 1 ; \x7d" followed by a use of
x, as parse_block consumes it (the opening brace is the caller's). -/
def c7_tokens : List HToken :=
  [⟨.Let, "let", 1⟩, ⟨.Identifier, "x", 1⟩, ⟨.Equals, "=", 1⟩,
   ⟨.Integer, "1", 1⟩, ⟨.Semicolon, ";", 1⟩, ⟨.RightBrace, "\x7d", 1⟩,
   ⟨.Identifier, "x", 1⟩, ⟨.EOF_TOKEN, "", 1⟩]

def c7_state0 : ParserState := ⟨c7_tokens, 0, [], 0⟩

/-- The parser state parse_block leaves behind: past the right brace, with
x still in the declared set. -/
def c7_after_block : ParserState := ⟨c7_tokens, 6, ["x"], 0⟩

def c7_after_var : ParserState := ⟨c7_tokens, 7, ["x"], 0⟩

/-- The token vector Tokenizer::tokenize produces for "let x = y;". -/
def c8_tokens : List HToken :=
  [⟨.Let, "let", 1⟩, ⟨.Identifier, "x", 1⟩, ⟨.Equals, "=", 1⟩,
   ⟨.Identifier, "y", 1⟩, ⟨.Semicolon, ";", 1⟩, ⟨.EOF_TOKEN, "", 1⟩]

/-- The parser state at the undeclared-variable throw for "let x = y;":
the identifier y has been advanced past, the semicolon is current. -/
def c8_err_state : ParserState := ⟨c8_tokens, 4, [], 0⟩

/-!
## Theorems

Supporting lemmas first: no dispatch branch of advance_token other than
the disengaged-bump branch can produce an Eof token.
-/

theorem Cursor.bump_fst_isSome (c : Cursor) : ((c.bump).1).isSome = true := by
  unfold Cursor.bump; split <;> rfl

theorem line_comment_ne_eof (c : Cursor) : (line_comment c).1 ≠ .Eof := by
  unfold line_comment; dsimp only; simp

theorem whitespace_ne_eof (c : Cursor) : (whitespace c).1 ≠ .Eof := by
  unfold whitespace; simp

theorem raw_ident_ne_eof (c : Cursor) : (raw_ident c).1 ≠ .Eof := by
  unfold raw_ident; simp

theorem invalid_ident_ne_eof (c : Cursor) : (invalid_ident c).1 ≠ .Eof := by
  unfold invalid_ident; simp

theorem ident_or_unknown_pref_ne_eof (c : Cursor) :
    (ident_or_unknown_pref c).1 ≠ .Eof := by
  unfold ident_or_unknown_pref
  dsimp only
  split
  · simp
  · split
    · exact invalid_ident_ne_eof _
    · simp

theorem lifetime_or_char_ne_eof (c : Cursor) :
    (lifetime_or_char c).1 ≠ .Eof := by
  unfold lifetime_or_char
  dsimp only
  repeat' split
  all_goals simp

theorem block_comment_loop_ne_eof (fuel : Nat) (ds : Option DocStyle) (depth : Nat)
    (c : Cursor) (r : TokenKind × Cursor) (h : block_comment_loop fuel ds depth c = some r) :
    r.1 ≠ .Eof := by
  induction fuel generalizing depth c with
  | zero => exact Option.noConfusion h
  | succ fuel ih =>
    unfold block_comment_loop at h
    dsimp only at h
    repeat' split at h
    all_goals first
      | exact Option.noConfusion h
      | (injection h with h2; subst h2; simp)
      | exact ih _ _ h

theorem block_comment_ne_eof (fuel : Nat) (c : Cursor) (r : TokenKind × Cursor)
    (h : block_comment fuel c = some r) : r.1 ≠ .Eof := by
  unfold block_comment at h
  exact block_comment_loop_ne_eof _ _ _ _ _ h

theorem lookup_ne_eof (l : List (Char × TokenKind)) (hl : ∀ p ∈ l, p.2 ≠ .Eof)
    (ch : Char) (k : TokenKind) (h : l.lookup ch = some k) : k ≠ .Eof := by
  induction l with
  | nil => exact Option.noConfusion h
  | cons p t ih =>
    simp [List.lookup] at h
    split at h
    · injection h with h2
      subst h2
      exact hl p (List.mem_cons_self _ _)
    · exact ih (fun q hq => hl q (List.mem_cons_of_mem _ hq)) h

theorem punct_kind_ne_eof (ch : Char) (k : TokenKind) (h : punct_kind ch = some k) :
    k ≠ .Eof :=
  lookup_ne_eof punct_table (by decide) ch k h

theorem c_or_byte_string_ne_eof (fuel : Nat) (mk_kind : Bool → LiteralKind)
    (mk_kind_raw : Option Nat → LiteralKind) (single_quoted : Option (Bool → LiteralKind))
    (c : Cursor) (r : TokenKind × Cursor)
    (h : c_or_byte_string fuel mk_kind mk_kind_raw single_quoted c = some r) :
    r.1 ≠ .Eof := by
  unfold c_or_byte_string at h
  dsimp only at h
  repeat' split at h
  all_goals
    first
      | (injection h with h2; subst h2; simp; done)
      | (rw [Option.map_eq_some'] at h
         obtain ⟨a, ha, hf⟩ := h
         subst hf
         simp)
      | (injection h with h2; subst h2; exact ident_or_unknown_pref_ne_eof _)

set_option maxHeartbeats 2000000 in
/-- No engaged-bump branch of advance_token produces an Eof token: the
produced token has kind Eof only through the disengaged-optional branch. -/
theorem advance_token_ne_eof (fuel : Nat) (c0 : Cursor) (t : Token) (c2 : Cursor)
    (hsome : ((c0.bump).1).isSome = true)
    (h : advance_token fuel c0 = some (t, c2)) : t.kind ≠ .Eof := by
  unfold advance_token at h
  dsimp only at h
  rcases hb : (c0.bump).1 with _ | ch
  · rw [hb] at hsome; exact Bool.noConfusion hsome
  · rw [hb] at h
    dsimp only at h
    rw [Option.map_eq_some'] at h
    obtain ⟨r, hstep, hf⟩ := h
    have ht : t.kind = r.1 := by
      have := congrArg Prod.fst hf
      simp at this
      rw [← this]
    rw [ht]
    clear hf ht
    repeat' split at hstep
    all_goals
      first
        | (injection hstep with h2; subst h2; simp; done)
        | (injection hstep with h2; subst h2; exact line_comment_ne_eof _)
        | (exact block_comment_ne_eof _ _ _ hstep)
        | (injection hstep with h2; subst h2; exact whitespace_ne_eof _)
        | (injection hstep with h2; subst h2; exact raw_ident_ne_eof _)
        | (injection hstep with h2; subst h2; exact ident_or_unknown_pref_ne_eof _)
        | (injection hstep with h2; subst h2; exact invalid_ident_ne_eof _)
        | (injection hstep with h2; subst h2; exact lifetime_or_char_ne_eof _)
        | (exact c_or_byte_string_ne_eof _ _ _ _ _ _ hstep)
        | (rename_i k hp; injection hstep with h2; subst h2;
           exact punct_kind_ne_eof _ _ hp)
        | (rw [Option.bind_eq_some] at hstep
           obtain ⟨a, ha, hf2⟩ := hstep
           repeat' split at hf2
           all_goals first
             | exact Option.noConfusion hf2
             | (injection hf2 with h2; subst h2; simp; done))
        | (rw [Option.map_eq_some'] at hstep
           obtain ⟨a, ha, hf2⟩ := hstep
           subst hf2
           simp)
        | exact Option.noConfusion hstep

/-- C10: at end of input Cursor::bump() returns an engaged optional
holding the NUL sentinel EOF_CHAR and never a disengaged optional, so a
caller testing has_value() cannot detect end of input through bump; and
the Eof-emitting branch of advance_token executes only when bump yields
a disengaged optional — for a token actually produced, kind Eof forces
the bump result to have been disengaged (which never happens). -/
theorem C10_bump_eof_sentinel :
    (∀ c : Cursor, ((c.bump).1).isSome = true) ∧
    (∀ c : Cursor, c.is_eof = true → (c.bump).1 = some EOF_CHAR) ∧
    (∀ fuel : Nat, ∀ c : Cursor, ∀ t : Token, ∀ c2 : Cursor,
      advance_token fuel c = some (t, c2) → t.kind = .Eof → (c.bump).1 = none) := by
  refine ⟨Cursor.bump_fst_isSome, ?_, ?_⟩
  · intro c hc
    unfold Cursor.bump
    rw [if_neg]
    unfold Cursor.is_eof at hc
    simp at hc
    omega
  · intro fuel c t c2 h hk
    exact absurd hk (advance_token_ne_eof fuel c t c2 (Cursor.bump_fst_isSome c) h)

/-- Witness for C10 at a concrete input: the empty input is at end of
input and its bump yields the engaged NUL optional. -/
theorem C10_witness :
    (Cursor.ofString "").is_eof = true ∧
      ((Cursor.ofString "").bump).1 = some EOF_CHAR :=
  ⟨by decide, C10_bump_eof_sentinel.2.1 (Cursor.ofString "") (by decide)⟩

/-- C1, evaluation at the failing input: tokenizing the empty input never
produces an Eof token.  A single advance_token call at the end-of-input
cursor yields an Unknown token of length 0 and leaves the cursor
unchanged (the bump it relies on returns the engaged NUL), so the n-th
token of the stream is that same Unknown token for every n: the stream is
infinite, never ends in Eof, and its zero-length Unknown tokens violate
the length bound for non-Eof tokens. -/
theorem C1_no_eof_token :
    (∀ fuel : Nat, advance_token fuel (Cursor.ofString "") =
      some (⟨.Unknown, 0⟩, Cursor.ofString "")) ∧
    (∀ fuel n : Nat, nth_token fuel (Cursor.ofString "") n =
      some (⟨.Unknown, 0⟩, Cursor.ofString "")) ∧
    TokenKind.Unknown ≠ TokenKind.Eof := by
  refine ⟨fun fuel => rfl, ?_, by decide⟩
  intro fuel n
  induction n with
  | zero => rfl
  | succ n ih =>
    show (advance_token fuel (Cursor.ofString "")).bind _ = _
    rw [show advance_token fuel (Cursor.ofString "") =
      some (⟨.Unknown, 0⟩, Cursor.ofString "") from rfl]
    simpa using ih

/-- C2, evaluation at the failing input, plus the general admission rule
the code actually implements.  Registering a first shared borrow of x
succeeds, after which a second shared borrow of x is NOT admitted:
can_borrow consults only the emptiness of the borrower list, with no
case distinguishing shared from mutable borrowers, so a shared borrow is
admitted exactly when the binding exists, is not moved, and has no
registered borrow of any kind — contradicting the claimed
"no mutable borrow active" rule and the claimed admission of a second
shared borrow (which the borrow-checker documentation also promises). -/
theorem C2_second_shared_borrow_rejected :
    (((OwnershipTracker.initial.register_variable "x" false).2.register_borrow
        "x" "b1" .Shared).1 = true) ∧
    (((OwnershipTracker.initial.register_variable "x" false).2.register_borrow
        "x" "b1" .Shared).2.can_borrow "x" .Shared = false) ∧
    (∀ t : OwnershipTracker, ∀ name : String,
      t.can_borrow name .Shared =
        match t.ownership_map.lookup name with
        | none => false
        | some d => !d.moved && d.borrowers.isEmpty) := by
  refine ⟨by decide, by decide, ?_⟩
  intro t name
  unfold OwnershipTracker.can_borrow
  rcases h : t.ownership_map.lookup name with _ | d
  · rfl
  · cases hm : d.moved <;> simp [hm]

/-- Predicate: a violation is not of kind UseAfterMove. -/
def notUAM (v : Violation) : Bool := !(v.type = .UseAfterMove)

theorem check_borrow_no_uam (b : BorrowData) (errs : List Violation) :
    (check_borrow b errs).all notUAM = errs.all notUAM := by
  unfold check_borrow
  split
  · simp [notUAM]
  · rfl

theorem check_variable_no_uam (bs : BorrowSet) (n : String) (errs : List Violation) :
    (check_variable bs n errs).all notUAM = errs.all notUAM := by
  unfold check_variable
  rcases bs.local_map.lookup n with _ | idxs
  · rfl
  · dsimp only
    induction idxs generalizing errs with
    | nil => rfl
    | cons i t ih =>
      rw [List.foldl_cons, ih]
      rcases h : bs.get_borrow i with _ | b <;> simp only [h]
      exact check_borrow_no_uam b errs

theorem check_expr_no_uam (bs : BorrowSet) (ast : ExprAST) (errs : List Violation) :
    (check_expr bs ast errs).all notUAM = errs.all notUAM := by
  match ast with
  | .BinaryExpr op l r =>
    show (check_expr bs r (check_expr bs l errs)).all _ = _
    rw [check_expr_no_uam bs r, check_expr_no_uam bs l]
  | .VarExpr n => exact check_variable_no_uam bs n errs
  | .IntExpr v => rfl
  | .LetExpr n m i => rfl
  | .BlockExpr es => rfl

/-- C3, evaluation at the failing input, plus the general shape of every
violation the checker can record.  After mark_moved on x succeeds, a
check of Var x yields no violation at all from the BorrowChecker of the
header (its borrow set is consulted, never the moved flag), and the
tracker-consulting revision records a violation of kind
BorrowWhileMutable; no code path constructs a UseAfterMove violation:
check_expr and check_variable_tracker only ever append violations whose
kind is not UseAfterMove. -/
theorem C3_no_use_after_move_violation :
    (((OwnershipTracker.initial.register_variable "x" false).2.mark_moved "x").1 = true) ∧
    (BorrowChecker.check emptyBorrowSet (.VarExpr "x") = (true, [])) ∧
    (∀ bs : BorrowSet, ∀ ast : ExprAST, ∀ errs : List Violation,
      (check_expr bs ast errs).all notUAM = errs.all notUAM) ∧
    (∀ t : OwnershipTracker, ∀ name : String, ∀ errs : List Violation,
      (check_variable_tracker t name errs).all notUAM = errs.all notUAM) := by
  refine ⟨by decide, by decide, check_expr_no_uam, ?_⟩
  intro t name errs
  unfold check_variable_tracker
  split
  · simp [notUAM]
  · rfl

/-- C7 counterexample: the claim also asserts that a name declared inside
a block is no longer treated as declared by the parser once the block has
been parsed.  After parse_block consumes a block declaring x, the flat
declared-variables set still contains x (parse_block's exit_scope only
decrements scope_depth), and a subsequent parse of the identifier x
succeeds as a variable read instead of failing as undeclared. -/
theorem C7_counterexample :
    Parser.parse_block 20 c7_state0 =
      some (.ok (.BlockExpr [.LetExpr "x" false (.IntExpr 1)], c7_after_block)) ∧
    c7_after_block.declared_variables = ["x"] ∧
    Parser.parse 20 c7_after_block = some (.ok (.VarExpr "x", c7_after_var)) :=
  ⟨rfl, rfl, rfl⟩

/-- C7 amended: after OwnershipTracker::exit_scope no binding whose scope
level equals the exited level remains in the ownership environment; the
parser, however, keeps a name declared inside a block in its flat
declared-variables set after the block has been parsed. -/
theorem C7_scope_discipline :
    (∀ t : OwnershipTracker,
      ((t.exit_scope).ownership_map.all
        (fun p => !(p.2.scope_level = t.current_scope))) = true) ∧
    (Parser.parse_block 20 c7_state0 =
      some (.ok (.BlockExpr [.LetExpr "x" false (.IntExpr 1)], c7_after_block)) ∧
     "x" ∈ c7_after_block.declared_variables ∧
     Parser.parse 20 c7_after_block = some (.ok (.VarExpr "x", c7_after_var))) := by
  refine ⟨?_, rfl, by decide, rfl⟩
  intro t
  unfold OwnershipTracker.exit_scope
  simp only [List.all_eq_true]
  intro p hp
  exact (List.mem_filter.mp hp).2

/-- C8: every error raised out of Parser::parse carries the prefix
"Line N: " with N the line of the current (un-advanced) token of the
parser state at the throw — the catch block builds exactly that string —
and the full pipeline on "let x = y;" (no prior y) fails with exactly
"Line 1: Use of undeclared variable: y". -/
theorem C8_error_line_prefix :
    (∀ fuel : Nat, ∀ st stE : ParserState, ∀ msg : String,
      Parser.parse fuel st = some (.error (stE, msg)) →
      ∃ rest : String, msg = "Line " ++ toString stE.peek.line ++ ": " ++ rest) ∧
    (Tokenizer.tokenize "let x = y;" = .ok c8_tokens) ∧
    (Parser.parse 30 ⟨c8_tokens, 0, [], 0⟩ =
      some (.error (c8_err_state, "Line 1: Use of undeclared variable: y"))) := by
  refine ⟨?_, ?_, rfl⟩
  · intro fuel st stE msg h
    unfold Parser.parse at h
    rcases hb : parse_expression fuel st with _ | er
    · simp only [hb] at h
      exact Option.noConfusion h
    · rcases er with e | r
      · obtain ⟨stE1, msg1⟩ := e
        simp only [hb, Option.some.injEq, Except.error.injEq, Prod.mk.injEq] at h
        obtain ⟨h1, h2⟩ := h
        subst h1
        exact ⟨msg1, h2.symm⟩
      · obtain ⟨ast, st1⟩ := r
        rcases hc : check_borrow_violations ast st1 with _ | err
        · simp only [hb, hc] at h
          injection h with h2
          exact Except.noConfusion h2
        · obtain ⟨stE1, msg1⟩ := err
          simp only [hb, hc, Option.some.injEq, Except.error.injEq, Prod.mk.injEq] at h
          obtain ⟨h1, h2⟩ := h
          subst h1
          exact ⟨msg1, h2.symm⟩
  · exact tokenize_of_runFuel "let x = y;" 11
      ⟨"let x = y;".data, c8_tokens.take 5, 9, 10, 1⟩ (by decide) rfl

/-- Witness for C8's prefix property at the concrete failing parse of
"let x = y;". -/
theorem C8_witness :
    ∃ rest : String, "Line 1: Use of undeclared variable: y" =
      "Line " ++ toString c8_err_state.peek.line ++ ": " ++ rest :=
  C8_error_line_prefix.1 30 ⟨c8_tokens, 0, [], 0⟩ c8_err_state
    "Line 1: Use of undeclared variable: y" C8_error_line_prefix.2.2

/-- C5 counterexample: for the input "#!/bin/x\n" the returned length is
8, the length of the first line including the hash-bang but EXCLUDING the
terminating newline; the claim's whole-first-line-including-newline
length is 9, and strip_shebang does not return it. -/
theorem C5_counterexample :
    strip_shebang "#!/bin/x\n" = some (some 8) ∧
    "#!/bin/x\n".length = 9 ∧
    strip_shebang "#!/bin/x\n" ≠ some (some ("#!/bin/x\n".length)) :=
  ⟨rfl, rfl, by decide⟩

/-- C5 amended: an input whose first significant token after the
hash-bang is OpenBracket yields None; an input such as "#!/bin/x\n…"
yields Some of the length of the first line including the hash-bang but
excluding the terminating newline (8 for this line). -/
theorem C5_shebang_gating :
    strip_shebang "#![x]\nlet a = 1" = some none ∧
    strip_shebang "#!/bin/x\nlet a = 1" = some (some 8) ∧
    "#!/bin/x".length = 8 :=
  ⟨rfl, rfl, rfl⟩

/-- C4 counterexample, refuting both halves of the claim.  First, the
low-level lexer maps stand-alone at-sign to the At token (there is a
dedicated switch case), not Unknown, and the "Unexpected character"
report for it is thrown by Tokenizer::tokenize itself, not produced by
the parser over an Unknown token.  Second, the lexer does NOT run to
completion on every input: on the unterminated raw string r-quote the
raw-string scan fails with NoTerminator and advance_token builds its
token from Result::unwrap of that Err, which throws — no token is
returned (the none result). -/
theorem C4_counterexample :
    advance_token 5 (Cursor.ofString "@") = some (⟨.At, 1⟩, ⟨['@'], 1, 0⟩) ∧
    TokenKind.At ≠ TokenKind.Unknown ∧
    Tokenizer.tokenize "@" = .error "Unexpected character \x27@\x27 at line 1" ∧
    advance_token 5 (Cursor.ofList ['r', DQ]) = none :=
  ⟨rfl, by decide, tokenize_err_of_runFuel "@" 3 _ (by decide) rfl, rfl⟩

/-- C4 amended: tokenizing stand-alone at-sign with the low-level lexer
yields an At token of length 1 (no exception, whatever the fuel); the
high-level Tokenizer::tokenize throws, itself reporting the unexpected
character at line 1; and the low-level lexer is not total — on the
unterminated raw string r-quote, advance_token's unwrap of the failed
scan's Err throws, for every fuel, so no token is ever returned. -/
theorem C4_at_token :
    (∀ fuel : Nat, advance_token fuel (Cursor.ofString "@") =
      some (⟨.At, 1⟩, ⟨['@'], 1, 0⟩)) ∧
    Tokenizer.tokenize "@" = .error "Unexpected character \x27@\x27 at line 1" ∧
    (∀ fuel : Nat, advance_token fuel (Cursor.ofList ['r', DQ]) = none) :=
  ⟨fun _ => rfl, tokenize_err_of_runFuel "@" 3 _ (by decide) rfl, fun _ => rfl⟩

theorem getD_append_self (pre l : List Char) (d : Char) :
    (pre ++ l).getD pre.length d = l.getD 0 d := by
  induction pre with
  | nil => rfl
  | cons p pre ih => simpa using ih

/-- Running the decimal-digit eater over a whole run of digits and
underscores: it consumes the run, reports whether it held a digit, and
stops at the end of input. -/
theorem eat_decimal_digits_go_spec (u : List Char) (pre : List Char) (lr : Nat)
    (h : ∀ ch ∈ u, (is_ascii_digit ch || ch = '_') = true) :
    eat_decimal_digits_go u.length ⟨pre ++ u, pre.length, lr⟩ =
      (u.any is_ascii_digit, ⟨pre ++ u, pre.length + u.length, lr - u.length⟩) := by
  induction u generalizing pre lr with
  | nil => rfl
  | cons ch u ih =>
    have hch := h ch (List.mem_cons_self _ _)
    have hrest : ∀ c2 ∈ u, (is_ascii_digit c2 || c2 = '_') = true :=
      fun c2 hc2 => h c2 (List.mem_cons_of_mem _ hc2)
    have hlen1 : (pre ++ [ch]).length = pre.length + 1 := by simp
    have hfp : (Cursor.mk (pre ++ ch :: u) pre.length lr).first_peek = ch := by
      unfold Cursor.first_peek
      simpa using getD_append_self pre (ch :: u) EOF_CHAR
    have hlt : pre.length < (pre ++ ch :: u).length := by simp
    have hbump : ((Cursor.mk (pre ++ ch :: u) pre.length lr).bump).2 =
        Cursor.mk (pre ++ ch :: u) (pre.length + 1) (lr - 1) := by
      unfold Cursor.bump
      rw [if_pos hlt]
    have hassoc : pre ++ ch :: u = (pre ++ [ch]) ++ u := by simp
    have hstep := ih (pre ++ [ch]) (lr - 1) hrest
    show eat_decimal_digits_go (u.length + 1) (Cursor.mk (pre ++ ch :: u) pre.length lr) = _
    unfold eat_decimal_digits_go
    rw [hfp]
    rcases hd : is_ascii_digit ch with _ | _
    · have hu : ch = '_' := by
        rcases Bool.or_eq_true_iff.mp hch with h1 | h2
        · rw [hd] at h1; exact Bool.noConfusion h1
        · exact of_decide_eq_true h2
      rw [if_neg Bool.false_ne_true]
      rw [if_pos hu]
      rw [hbump]
      rw [hassoc, ← hlen1, hstep]
      simp [List.any_cons, hd, Cursor.mk.injEq, Prod.mk.injEq]
      omega
    · rw [if_pos rfl]
      rw [hbump]
      rw [hassoc, ← hlen1, hstep]
      simp [List.any_cons, hd, Cursor.mk.injEq, Prod.mk.injEq]
      omega

/-- The same for the hexadecimal-digit eater. -/
theorem eat_hexadecimal_digits_go_spec (u : List Char) (pre : List Char) (lr : Nat)
    (h : ∀ ch ∈ u, (is_hex_digit ch || ch = '_') = true) :
    eat_hexadecimal_digits_go u.length ⟨pre ++ u, pre.length, lr⟩ =
      (u.any is_hex_digit, ⟨pre ++ u, pre.length + u.length, lr - u.length⟩) := by
  induction u generalizing pre lr with
  | nil => rfl
  | cons ch u ih =>
    have hch := h ch (List.mem_cons_self _ _)
    have hrest : ∀ c2 ∈ u, (is_hex_digit c2 || c2 = '_') = true :=
      fun c2 hc2 => h c2 (List.mem_cons_of_mem _ hc2)
    have hlen1 : (pre ++ [ch]).length = pre.length + 1 := by simp
    have hfp : (Cursor.mk (pre ++ ch :: u) pre.length lr).first_peek = ch := by
      unfold Cursor.first_peek
      simpa using getD_append_self pre (ch :: u) EOF_CHAR
    have hlt : pre.length < (pre ++ ch :: u).length := by simp
    have hbump : ((Cursor.mk (pre ++ ch :: u) pre.length lr).bump).2 =
        Cursor.mk (pre ++ ch :: u) (pre.length + 1) (lr - 1) := by
      unfold Cursor.bump
      rw [if_pos hlt]
    have hassoc : pre ++ ch :: u = (pre ++ [ch]) ++ u := by simp
    have hstep := ih (pre ++ [ch]) (lr - 1) hrest
    show eat_hexadecimal_digits_go (u.length + 1) (Cursor.mk (pre ++ ch :: u) pre.length lr) = _
    unfold eat_hexadecimal_digits_go
    rw [hfp]
    rcases hd : is_hex_digit ch with _ | _
    · have hu : ch = '_' := by
        rcases Bool.or_eq_true_iff.mp hch with h1 | h2
        · rw [hd] at h1; exact Bool.noConfusion h1
        · exact of_decide_eq_true h2
      rw [if_neg Bool.false_ne_true]
      rw [if_pos hu]
      rw [hbump]
      rw [hassoc, ← hlen1, hstep]
      simp [List.any_cons, hd, Cursor.mk.injEq, Prod.mk.injEq]
      omega
    · rw [if_pos rfl]
      rw [hbump]
      rw [hassoc, ← hlen1, hstep]
      simp [List.any_cons, hd, Cursor.mk.injEq, Prod.mk.injEq]
      omega

/-- At end of input the number tail finds neither a dot nor an exponent
and produces a non-empty Int literal of the given base. -/
theorem number_tail_at_end (base : Base) (c : Cursor) (h : c.input.length ≤ c.pos) :
    number_tail base c = (.Int base false, c) := by
  have hfp : c.first_peek = EOF_CHAR := by
    unfold Cursor.first_peek
    exact List.getD_eq_default _ _ h
  have hsp : c.second_peek = EOF_CHAR := by
    unfold Cursor.second_peek
    exact List.getD_eq_default _ _ (by omega)
  unfold number_tail
  rw [hfp, hsp]
  rw [if_neg (by decide), if_neg (by decide)]

/-- C9: a numeric literal beginning with the base prefixes 0b, 0o, or 0x
followed by a run of underscores and digits of the digit class the lexer
consumes for that prefix (eat_decimal_digits for b and o,
eat_hexadecimal_digits for x) lexes to an Int literal with base Binary,
Octal, or Hexadecimal respectively, whose empty_int flag is true exactly
when the run holds no digit of that class. -/
theorem C9_numeric_base_flags (ub uo ux : List Char) (lb lo lx : Nat)
    (hb : ∀ ch ∈ ub, (is_ascii_digit ch || ch = '_') = true)
    (ho : ∀ ch ∈ uo, (is_ascii_digit ch || ch = '_') = true)
    (hx : ∀ ch ∈ ux, (is_hex_digit ch || ch = '_') = true) :
    (number ⟨'0' :: 'b' :: ub, 1, lb⟩ '0').1 = .Int .Binary (!ub.any is_ascii_digit)
    ∧ (number ⟨'0' :: 'o' :: uo, 1, lo⟩ '0').1 = .Int .Octal (!uo.any is_ascii_digit)
    ∧ (number ⟨'0' :: 'x' :: ux, 1, lx⟩ '0').1 = .Int .Hexadecimal (!ux.any is_hex_digit) := by
  refine ⟨?_, ?_, ?_⟩
  · have hbump : ((Cursor.mk ('0' :: 'b' :: ub) 1 lb).bump).2
        = Cursor.mk ('0' :: 'b' :: ub) 2 (lb - 1) := by
      unfold Cursor.bump
      rw [if_pos (by simp only [List.length_cons]; omega)]
    have e1 : eat_decimal_digits (Cursor.mk ('0' :: 'b' :: ub) 2 (lb - 1))
        = (ub.any is_ascii_digit,
           Cursor.mk ('0' :: 'b' :: ub) (2 + ub.length) (lb - 1 - ub.length)) := by
      have hspec := eat_decimal_digits_go_spec ub ['0', 'b'] (lb - 1) hb
      unfold eat_decimal_digits
      have hfuel : ('0' :: 'b' :: ub).length - 2 = ub.length := by
        simp only [List.length_cons]; omega
      rw [hfuel]
      convert hspec using 3 <;> simp
    have htail := number_tail_at_end .Binary
        (Cursor.mk ('0' :: 'b' :: ub) (2 + ub.length) (lb - 1 - ub.length))
        (by simp only [List.length_cons]; omega)
    have hnext : (Cursor.mk ('0' :: 'b' :: ub) 1 lb).first_peek = 'b' := rfl
    unfold number
    rw [if_pos rfl, hnext, if_pos rfl, hbump]
    simp only [e1]
    cases had : ub.any is_ascii_digit
    · rfl
    · simpa using congrArg Prod.fst htail
  · have hbump : ((Cursor.mk ('0' :: 'o' :: uo) 1 lo).bump).2
        = Cursor.mk ('0' :: 'o' :: uo) 2 (lo - 1) := by
      unfold Cursor.bump
      rw [if_pos (by simp only [List.length_cons]; omega)]
    have e1 : eat_decimal_digits (Cursor.mk ('0' :: 'o' :: uo) 2 (lo - 1))
        = (uo.any is_ascii_digit,
           Cursor.mk ('0' :: 'o' :: uo) (2 + uo.length) (lo - 1 - uo.length)) := by
      have hspec := eat_decimal_digits_go_spec uo ['0', 'o'] (lo - 1) ho
      unfold eat_decimal_digits
      have hfuel : ('0' :: 'o' :: uo).length - 2 = uo.length := by
        simp only [List.length_cons]; omega
      rw [hfuel]
      convert hspec using 3 <;> simp
    have htail := number_tail_at_end .Octal
        (Cursor.mk ('0' :: 'o' :: uo) (2 + uo.length) (lo - 1 - uo.length))
        (by simp only [List.length_cons]; omega)
    have hnext : (Cursor.mk ('0' :: 'o' :: uo) 1 lo).first_peek = 'o' := rfl
    unfold number
    rw [if_pos rfl, hnext, if_neg (by decide), if_pos rfl, hbump]
    simp only [e1]
    cases had : uo.any is_ascii_digit
    · rfl
    · simpa using congrArg Prod.fst htail
  · have hbump : ((Cursor.mk ('0' :: 'x' :: ux) 1 lx).bump).2
        = Cursor.mk ('0' :: 'x' :: ux) 2 (lx - 1) := by
      unfold Cursor.bump
      rw [if_pos (by simp only [List.length_cons]; omega)]
    have e1 : eat_hexadecimal_digits (Cursor.mk ('0' :: 'x' :: ux) 2 (lx - 1))
        = (ux.any is_hex_digit,
           Cursor.mk ('0' :: 'x' :: ux) (2 + ux.length) (lx - 1 - ux.length)) := by
      have hspec := eat_hexadecimal_digits_go_spec ux ['0', 'x'] (lx - 1) hx
      unfold eat_hexadecimal_digits
      have hfuel : ('0' :: 'x' :: ux).length - 2 = ux.length := by
        simp only [List.length_cons]; omega
      rw [hfuel]
      convert hspec using 3 <;> simp
    have htail := number_tail_at_end .Hexadecimal
        (Cursor.mk ('0' :: 'x' :: ux) (2 + ux.length) (lx - 1 - ux.length))
        (by simp only [List.length_cons]; omega)
    have hnext : (Cursor.mk ('0' :: 'x' :: ux) 1 lx).first_peek = 'x' := rfl
    unfold number
    rw [if_pos rfl, hnext, if_neg (by decide), if_neg (by decide), if_pos rfl, hbump]
    simp only [e1]
    cases had : ux.any is_hex_digit
    · rfl
    · simpa using congrArg Prod.fst htail

/-- Witness for C9 at concrete digit runs: 0b1 and 0xF give non-empty Int
literals of base Binary and Hexadecimal, 0o_ gives an empty one of base
Octal. -/
theorem C9_witness :
    (number ⟨['0', 'b', '1'], 1, 3⟩ '0').1 = .Int .Binary (!(['1'].any is_ascii_digit))
    ∧ (number ⟨['0', 'o', '_'], 1, 3⟩ '0').1 = .Int .Octal (!(['_'].any is_ascii_digit))
    ∧ (number ⟨['0', 'x', 'F'], 1, 3⟩ '0').1 = .Int .Hexadecimal (!(['F'].any is_hex_digit)) :=
  C9_numeric_base_flags ['1'] ['_'] ['F'] 3 3 3 (by decide) (by decide) (by decide)

set_option maxRecDepth 100000 in
set_option maxHeartbeats 2000000 in
/-- C6 counterexample: on an input of 256 leading hashes with no opening
quote at all, the leading hash count exceeds 255 and yet
raw_double_quoted_string produces no TooManyDelimiters error — the scan
fails with NoTerminator, and the cited implementation calls unwrap() on
that Err, which throws (the none result). -/
theorem C6_counterexample :
    raw_double_quoted_string (Cursor.ofList (List.replicate 256 HASH)) 1 = none
    ∧ (count_open_hashes (Cursor.ofList (List.replicate 256 HASH))).1 = 256 :=
  ⟨rfl, rfl⟩

set_option maxRecDepth 100000 in
set_option maxHeartbeats 2000000 in
/-- C6 (amended): when the underlying raw_string_unvalidated scan succeeds
with hash count n, raw_double_quoted_string returns Ok n for n up to 255
and the TooManyDelimiters error for larger n; when the scan fails,
raw_double_quoted_string returns nothing at all (the unwrap of the Err
throws), so no error value — TooManyDelimiters, NoTerminator or
InvalidStarter — is ever returned on a failed scan.  Concretely, the
terminated one-hash raw string body yields Ok 1 and a terminated
256-hash one yields TooManyDelimiters 256. -/
theorem C6_raw_string_delimiters :
    (∀ c pl n c1, raw_string_unvalidated c pl = (.ok n, c1) →
        raw_double_quoted_string c pl
          = some (if n ≤ 255 then (.ok n, c1) else (.error (.TooManyDelimiters n), c1)))
    ∧ (∀ c pl e c1, raw_string_unvalidated c pl = (.error e, c1) →
        raw_double_quoted_string c pl = none)
    ∧ (raw_double_quoted_string
        (Cursor.ofList (HASH :: DQ :: 'a' :: DQ :: HASH :: [])) 1).map Prod.fst
        = some (.ok 1)
    ∧ (raw_double_quoted_string
        (Cursor.ofList (List.replicate 256 HASH ++ DQ :: 'a' :: DQ
          :: List.replicate 256 HASH)) 1).map Prod.fst
        = some (.error (.TooManyDelimiters 256)) := by
  refine ⟨?_, ?_, rfl, rfl⟩
  · intro c pl n c1 h
    unfold raw_double_quoted_string
    rw [h]
    by_cases hn : n ≤ 255
    · simp [hn]
    · simp [hn]
  · intro c pl e c1 h
    unfold raw_double_quoted_string
    rw [h]

end Amayori








